import Mathlib

/-!
Verification development for the Users-Service repository.

The service's state lives in five relational tables (Users, Friendships,
Interests, UserInterests, UserSchedule); the endpoints in
src/routers/users.py read and mutate them through parameterized SQL.
The shallow embedding below represents each table as a list of rows and
each endpoint as a Lean function from inputs and a database state to an
HTTP-style result.  SQL statements are translated one-for-one:
SELECT ... WHERE with fetchone becomes List.find?, SELECT with fetchall
becomes List.filter (the ORDER BY clauses are not modelled since every
property proved here is order-independent), UPDATE becomes List.map,
DELETE becomes List.filter with the negated condition, INSERT becomes
appending a row, and cnx.commit is the identity (each execute mutates
the modelled store directly, matching the observed single-connection,
autocommit-style design the spec describes).  HTTPException becomes an
error value carrying the status code and detail string.
-/

namespace UsersService

/-- Friendship.status column: the engine only ever writes these two values
(send_friend_request inserts pending, accept_friend_request updates to
accepted; rejection is row deletion). -/
inductive FStatus where
  | pending
  | accepted
deriving DecidableEq, Repr

/-- The literal text stored in the status column, as interpolated into the
detail string of accept_friend_request's 400 error. -/
def FStatus.text : FStatus → String
  | .pending => "pending"
  | .accepted => "accepted"

/-- A row of the Users table (the columns the modelled endpoints touch). -/
structure User where
  user_id : Nat
  firebase_uid : String
  first_name : String
  last_name : String
  username : String
  email : String
  profile_picture : String
  role : String
deriving DecidableEq, Repr

/-- A row of the Friendships table.  created_at is not modelled: it is only
used for ORDER BY, and no property proved here depends on result order. -/
structure Friendship where
  friendship_id : Nat
  user_id_1 : Nat
  user_id_2 : Nat
  requested_by : Nat
  status : FStatus
deriving DecidableEq, Repr

/-- A row of the Interests catalog table. -/
structure Interest where
  interest_id : Nat
  interest_name : String
deriving DecidableEq, Repr

/-- A row of the UserInterests join table. -/
structure UserInterest where
  user_id : Nat
  interest_id : Nat
deriving DecidableEq, Repr

/-- A row of the UserSchedule table. -/
structure Schedule where
  schedule_id : Nat
  user_id : Nat
  start_time : String
  end_time : String
  type : String
  title : String
deriving DecidableEq, Repr

/-- The database state: the five tables plus the AUTO_INCREMENT counter of
Friendships (cur.lastrowid after the INSERT in send_friend_request). -/
structure DB where
  users : List User
  friendships : List Friendship
  interests : List Interest
  userInterests : List UserInterest
  schedules : List Schedule
  nextFriendshipId : Nat
deriving DecidableEq, Repr

/-- An HTTPException: status_code and detail. -/
structure Err where
  code : Nat
  detail : String
deriving DecidableEq, Repr

/-- SELECT user_id FROM Users WHERE firebase_uid = uid, fetchone: the
caller-resolution query every endpoint begins with. -/
def findUserByUid (db : DB) (uid : String) : Option User :=
  db.users.find? fun u => u.firebase_uid == uid

/-- SELECT ... FROM Users WHERE user_id = i, fetchone. -/
def findUserById (db : DB) (i : Nat) : Option User :=
  db.users.find? fun u => u.user_id == i

/-- The WHERE clause of send_friend_request's existing-friendship lookup:
(user_id_1 = a AND user_id_2 = b) OR (user_id_1 = b AND user_id_2 = a). -/
def pairPred (a b : Nat) (f : Friendship) : Bool :=
  (f.user_id_1 == a && f.user_id_2 == b) || (f.user_id_1 == b && f.user_id_2 == a)

/-- SELECT ... FROM Friendships WHERE (pair in either order), fetchone. -/
def findPairRow (db : DB) (a b : Nat) : Option Friendship :=
  db.friendships.find? (pairPred a b)

/-- SELECT ... FROM Friendships WHERE friendship_id = fid, fetchone. -/
def findFriendship (db : DB) (fid : Nat) : Option Friendship :=
  db.friendships.find? fun f => f.friendship_id == fid

/-- POST /users/friends/requests (send_friend_request, users.py lines
185-265): resolve the caller, validate the target exists, forbid
self-requests, look up an existing row for the unordered pair in either
stored order, fail 400 on accepted or pending, otherwise insert
(min, max, requested_by = caller, pending) and return the created row. -/
def send_friend_request (uid : String) (to_user_id : Nat) (db : DB) :
    Except Err (Friendship × DB) :=
  match findUserByUid db uid with
  | none => .error ⟨404, "Current user not found"⟩
  | some current =>
    let from_user_id := current.user_id
    match findUserById db to_user_id with
    | none => .error ⟨404, "Target user not found"⟩
    | some _ =>
      if from_user_id == to_user_id then
        .error ⟨400, "Cannot send friend request to yourself"⟩
      else
        match findPairRow db from_user_id to_user_id with
        | some existing =>
          match existing.status with
          | .accepted => .error ⟨400, "You are already friends with this user"⟩
          | .pending => .error ⟨400, "Friend request already pending"⟩
        | none =>
          let row : Friendship :=
            { friendship_id := db.nextFriendshipId
              user_id_1 := min from_user_id to_user_id
              user_id_2 := max from_user_id to_user_id
              requested_by := from_user_id
              status := .pending }
          .ok (row, { db with
                        friendships := db.friendships ++ [row]
                        nextFriendshipId := db.nextFriendshipId + 1 })

/-- PUT /users/friends/requests/fid/accept (accept_friend_request, users.py
lines 472-539): resolve the caller, 404 if the row is missing, 403 if the
caller is neither participant, 400 if the status is not pending, else
UPDATE status to accepted and return the updated row. -/
def accept_friend_request (uid : String) (fid : Nat) (db : DB) :
    Except Err (Friendship × DB) :=
  match findUserByUid db uid with
  | none => .error ⟨404, "Current user not found"⟩
  | some current =>
    match findFriendship db fid with
    | none => .error ⟨404, "Friend request not found"⟩
    | some friendship =>
      if friendship.user_id_1 != current.user_id &&
         friendship.user_id_2 != current.user_id then
        .error ⟨403, "You can only accept friend requests sent to you"⟩
      else if friendship.status != .pending then
        .error ⟨400, "Friend request is already " ++ friendship.status.text⟩
      else
        .ok ({ friendship with status := .accepted },
             { db with friendships := db.friendships.map fun g =>
                 if g.friendship_id == fid then { g with status := .accepted } else g })

/-- DELETE /users/friends/requests/fid/reject (reject_friend_request,
users.py lines 542-590): resolve the caller, 404 if the row is missing,
403 if the caller is neither participant, else DELETE the row
unconditionally (no status check) and return the deleted id. -/
def reject_friend_request (uid : String) (fid : Nat) (db : DB) :
    Except Err (Nat × DB) :=
  match findUserByUid db uid with
  | none => .error ⟨404, "Current user not found"⟩
  | some current =>
    match findFriendship db fid with
    | none => .error ⟨404, "Friend request not found"⟩
    | some friendship =>
      if friendship.user_id_1 != current.user_id &&
         friendship.user_id_2 != current.user_id then
        .error ⟨403, "You can only reject friend requests you are involved in"⟩
      else
        .ok (fid, { db with friendships :=
                      db.friendships.filter fun g => !(g.friendship_id == fid) })

/-- DELETE /users/friends/fid (remove_friend, users.py lines 593-641):
same resolution, 404, 403 participant check and unconditional DELETE as
reject_friend_request; only the 404/403 detail strings differ. -/
def remove_friend (uid : String) (fid : Nat) (db : DB) :
    Except Err (Nat × DB) :=
  match findUserByUid db uid with
  | none => .error ⟨404, "Current user not found"⟩
  | some current =>
    match findFriendship db fid with
    | none => .error ⟨404, "Friendship not found"⟩
    | some friendship =>
      if friendship.user_id_1 != current.user_id &&
         friendship.user_id_2 != current.user_id then
        .error ⟨403, "You can only remove your own friendships"⟩
      else
        .ok (fid, { db with friendships :=
                      db.friendships.filter fun g => !(g.friendship_id == fid) })

/-- A result row of GET /users/friends/requests/pending: the Friendships
columns plus the initiator's profile picked by the CASE expressions over
the two LEFT JOINed Users aliases (NULL, i.e. none, if the join misses). -/
structure PendingEntry where
  friendship_id : Nat
  user_id_1 : Nat
  user_id_2 : Nat
  requested_by : Nat
  status : FStatus
  sender_user_id : Nat
  sender_id : Option Nat
  sender_first_name : Option String
  sender_last_name : Option String
  sender_username : Option String
  sender_profile_picture : Option String
deriving DecidableEq, Repr

/-- The SELECT list of get_pending_requests applied to one Friendships row:
sender_user_id is requested_by itself, and the sender_* columns come from
u1 when requested_by = user_id_1, else from u2. -/
def mkPendingEntry (db : DB) (f : Friendship) : PendingEntry :=
  let joined := if f.requested_by == f.user_id_1
                then findUserById db f.user_id_1
                else findUserById db f.user_id_2
  { friendship_id := f.friendship_id
    user_id_1 := f.user_id_1
    user_id_2 := f.user_id_2
    requested_by := f.requested_by
    status := f.status
    sender_user_id := f.requested_by
    sender_id := joined.map (·.user_id)
    sender_first_name := joined.map (·.first_name)
    sender_last_name := joined.map (·.last_name)
    sender_username := joined.map (·.username)
    sender_profile_picture := joined.map (·.profile_picture) }

/-- The WHERE clause of get_pending_requests: participant, pending, and
requested_by different from the current user (incoming requests). -/
def pendingIncomingRows (cur : Nat) (db : DB) : List Friendship :=
  db.friendships.filter fun f =>
    (f.user_id_1 == cur || f.user_id_2 == cur) &&
    f.status == .pending && f.requested_by != cur

/-- GET /users/friends/requests/pending (get_pending_requests, users.py
lines 268-332).  The ORDER BY created_at DESC is not modelled; the
properties proved are order-independent. -/
def get_pending_requests (uid : String) (db : DB) :
    Except Err (List PendingEntry) :=
  match findUserByUid db uid with
  | none => .error ⟨404, "Current user not found"⟩
  | some current =>
    .ok ((pendingIncomingRows current.user_id db).map (mkPendingEntry db))

/-- A result row of GET /users/friends/requests/sent: the Friendships
columns plus the recipient's id and profile picked by the CASE
expressions. -/
structure SentEntry where
  friendship_id : Nat
  user_id_1 : Nat
  user_id_2 : Nat
  requested_by : Nat
  status : FStatus
  recipient_user_id : Nat
  recipient_id : Option Nat
  recipient_first_name : Option String
  recipient_last_name : Option String
  recipient_username : Option String
  recipient_profile_picture : Option String
deriving DecidableEq, Repr

/-- The SELECT list of get_sent_requests applied to one Friendships row:
recipient_user_id is user_id_2 when requested_by = user_id_1, else
user_id_1; the recipient_* columns come from the matching Users alias. -/
def mkSentEntry (db : DB) (f : Friendship) : SentEntry :=
  let recipient := if f.requested_by == f.user_id_1 then f.user_id_2 else f.user_id_1
  let joined := if f.requested_by == f.user_id_1
                then findUserById db f.user_id_2
                else findUserById db f.user_id_1
  { friendship_id := f.friendship_id
    user_id_1 := f.user_id_1
    user_id_2 := f.user_id_2
    requested_by := f.requested_by
    status := f.status
    recipient_user_id := recipient
    recipient_id := joined.map (·.user_id)
    recipient_first_name := joined.map (·.first_name)
    recipient_last_name := joined.map (·.last_name)
    recipient_username := joined.map (·.username)
    recipient_profile_picture := joined.map (·.profile_picture) }

/-- The WHERE clause of get_sent_requests: participant, pending, and
requested_by equal to the current user (outgoing requests). -/
def pendingOutgoingRows (cur : Nat) (db : DB) : List Friendship :=
  db.friendships.filter fun f =>
    (f.user_id_1 == cur || f.user_id_2 == cur) &&
    f.status == .pending && f.requested_by == cur

/-- GET /users/friends/requests/sent (get_sent_requests, users.py lines
335-402), again without the order clause. -/
def get_sent_requests (uid : String) (db : DB) :
    Except Err (List SentEntry) :=
  match findUserByUid db uid with
  | none => .error ⟨404, "Current user not found"⟩
  | some current =>
    .ok ((pendingOutgoingRows current.user_id db).map (mkSentEntry db))

/-- One Friendship Engine call, identified by the caller's header value and
the endpoint's path/query parameters. -/
inductive Op where
  | send (uid : String) (to_user_id : Nat)
  | accept (uid : String) (fid : Nat)
  | reject (uid : String) (fid : Nat)
  | remove (uid : String) (fid : Nat)

/-- The database state an endpoint call leaves behind: the new state on
success, the unchanged state when the call raised (every error path above
raises before any write). -/
def stateAfter {α : Type} (r : Except Err (α × DB)) (db : DB) : DB :=
  match r with
  | .ok (_, db') => db'
  | .error _ => db

/-- Run one engine operation against the store, keeping only its state
effect. -/
def applyOp (db : DB) (op : Op) : DB :=
  match op with
  | .send uid t => stateAfter (send_friend_request uid t db) db
  | .accept uid fid => stateAfter (accept_friend_request uid fid db) db
  | .reject uid fid => stateAfter (reject_friend_request uid fid db) db
  | .remove uid fid => stateAfter (remove_friend uid fid db) db

/-- Run a sequence of engine operations left to right. -/
def runOps (db : DB) (ops : List Op) : DB := ops.foldl applyOp db

/-- Two Friendship rows carry the same unordered user pair. -/
def samePair (f g : Friendship) : Prop :=
  (f.user_id_1 = g.user_id_1 ∧ f.user_id_2 = g.user_id_2) ∨
  (f.user_id_1 = g.user_id_2 ∧ f.user_id_2 = g.user_id_1)

/-- The Friendships-table invariant: every row is canonically ordered
(user_id_1 is the min and user_id_2 the max of the pair, strictly, so no
self-friendship) with requested_by one of the two participants, and no
two rows carry the same unordered pair. -/
def FriendInv (db : DB) : Prop :=
  (∀ f ∈ db.friendships,
      f.user_id_1 = min f.user_id_1 f.user_id_2 ∧
      f.user_id_2 = max f.user_id_1 f.user_id_2 ∧
      f.user_id_1 < f.user_id_2 ∧
      (f.requested_by = f.user_id_1 ∨ f.requested_by = f.user_id_2)) ∧
  db.friendships.Pairwise fun f g => ¬ samePair f g

/-- The optional fields of the PUT /users/user_id body (models.UserUpdate,
models.py lines 22-28); a none field is absent from the patch. -/
structure UserUpdate where
  first_name : Option String
  last_name : Option String
  username : Option String
  email : Option String
  profile_picture : Option String
  role : Option String
deriving DecidableEq, Repr

/-- The dynamic SET clause built by update_user: each field present in the
patch overwrites the row's column, absent fields are untouched. -/
def applyUserUpdate (upd : UserUpdate) (u : User) : User :=
  let u := match upd.first_name with | some v => { u with first_name := v } | none => u
  let u := match upd.last_name with | some v => { u with last_name := v } | none => u
  let u := match upd.username with | some v => { u with username := v } | none => u
  let u := match upd.email with | some v => { u with email := v } | none => u
  let u := match upd.profile_picture with | some v => { u with profile_picture := v } | none => u
  match upd.role with | some v => { u with role := v } | none => u

/-- update_user's emptiness check on the collected field list. -/
def hasUpdateField (upd : UserUpdate) : Bool :=
  upd.first_name.isSome || upd.last_name.isSome || upd.username.isSome ||
  upd.email.isSome || upd.profile_picture.isSome || upd.role.isSome

/-- PUT /users/user_id (update_user, users.py lines 825-898): resolve the
caller (403 if unknown), require ownership (403), re-select the row (404
if gone), 400 on an empty patch, else UPDATE the provided columns —
including role, which is applied like any other field; the only
role-related extra step is the best-effort Firebase claim sync, a side
channel with no store effect, not modelled. -/
def update_user (uid : String) (user_id : Nat) (upd : UserUpdate) (db : DB) :
    Except Err (Nat × DB) :=
  match findUserByUid db uid with
  | none => .error ⟨403, "You can only update your own profile"⟩
  | some current =>
    if current.user_id != user_id then
      .error ⟨403, "You can only update your own profile"⟩
    else
      match findUserById db user_id with
      | none => .error ⟨404, "User not found"⟩
      | some _ =>
        if !(hasUpdateField upd) then
          .error ⟨400, "No fields to update"⟩
        else
          .ok (user_id, { db with users := db.users.map fun u =>
              if u.user_id == user_id then applyUserUpdate upd u else u })

/-- The per-id loop of add_user_interests: for each requested id, verify it
exists in the Interests catalog — raising 400 as soon as one does not,
with the rows inserted so far still in place — and insert the join row. -/
def insertInterestsLoop (user_id : Nat) (ids : List Nat) (db : DB) :
    Except Err Unit × DB :=
  match ids with
  | [] => (.ok (), db)
  | interest_id :: rest =>
    match db.interests.find? (fun i => i.interest_id == interest_id) with
    | none =>
      (.error ⟨400, "Interest " ++ toString interest_id ++ " not found"⟩, db)
    | some _ =>
      insertInterestsLoop user_id rest
        { db with userInterests := db.userInterests ++ [⟨user_id, interest_id⟩] }

/-- POST /users/user_id/interests (add_user_interests, users.py lines
1113-1157): resolve the caller (403), require ownership (403), DELETE all
of the user's existing join rows, then run the per-id verify-and-insert
loop.  The result carries the final store state in both outcomes, since
the 400 branch fires after the delete and any earlier inserts. -/
def add_user_interests (uid : String) (user_id : Nat) (interest_ids : List Nat)
    (db : DB) : Except Err (Nat × List Nat) × DB :=
  match findUserByUid db uid with
  | none => (.error ⟨403, "Authentication required"⟩, db)
  | some current =>
    if current.user_id != user_id then
      (.error ⟨403, "You can only update your own interests"⟩, db)
    else
      let db1 := { db with userInterests :=
                     db.userInterests.filter fun r => !(r.user_id == user_id) }
      match insertInterestsLoop user_id interest_ids db1 with
      | (.ok _, db2) => (.ok (user_id, interest_ids), db2)
      | (.error e, db2) => (.error e, db2)

/-- DELETE /users/user_id/schedules/schedule_id (delete_user_schedule,
users.py lines 1062-1090): resolve the caller (403), require ownership
(403), then DELETE WHERE schedule_id AND user_id both match, and return
the deleted-status body regardless of whether any row matched. -/
def delete_user_schedule (uid : String) (user_id schedule_id : Nat) (db : DB) :
    Except Err (Nat × DB) :=
  match findUserByUid db uid with
  | none => .error ⟨403, "Authentication required"⟩
  | some current =>
    if current.user_id != user_id then
      .error ⟨403, "You can only delete your own schedules"⟩
    else
      .ok (schedule_id, { db with schedules := db.schedules.filter fun s =>
            !(s.schedule_id == schedule_id && s.user_id == user_id) })

/-- A Python datetime value as far as the schedule endpoints use it: the six
calendar components plus the microsecond (always discarded by the final
strftime). -/
structure PyDateTime where
  year : Nat
  month : Nat
  day : Nat
  hour : Nat
  minute : Nat
  second : Nat
  microsecond : Nat
deriving DecidableEq, Repr

/-- Gregorian leap-year rule, as in Python's calendar arithmetic. -/
def isLeapYear (y : Nat) : Bool :=
  (y % 4 == 0 && y % 100 != 0) || y % 400 == 0

/-- Days in a month, used by the datetime constructor's day validation. -/
def daysInMonth (y m : Nat) : Nat :=
  if m == 2 then (if isLeapYear y then 29 else 28)
  else if m == 4 || m == 6 || m == 9 || m == 11 then 30
  else 31

/-- The datetime constructor's range validation (MINYEAR 1, MAXYEAR 9999;
both strptime and fromisoformat raise ValueError outside these). -/
def validPy (y mo d h mi s us : Nat) : Bool :=
  1 ≤ y && y ≤ 9999 && 1 ≤ mo && mo ≤ 12 && 1 ≤ d && d ≤ daysInMonth y mo &&
  h ≤ 23 && mi ≤ 59 && s ≤ 59 && us ≤ 999999

/-- Numeric value of a decimal digit character. -/
def digitVal (c : Char) : Nat := c.toNat - 48

/-- Read exactly n decimal digits, returning their value and the rest. -/
def readExactDigits : Nat → List Char → Option (Nat × List Char)
  | 0, cs => some (0, cs)
  | _ + 1, [] => none
  | n + 1, c :: cs =>
    if c.isDigit then
      match readExactDigits n cs with
      | some (v, rest) => some (digitVal c * 10 ^ n + v, rest)
      | none => none
    else none

/-- Consume one expected character. -/
def expectChar (c : Char) : List Char → Option (List Char)
  | [] => none
  | x :: xs => if x == c then some xs else none

/-- Greedily read one or two decimal digits (the strptime patterns for the
month, day, hour, minute and second fields match one or two digits; in
the formats used here the following character is never a digit, so plain
greedy matching coincides with the regex). -/
def readDigitsUpTo2 : List Char → Option (Nat × List Char)
  | [] => none
  | [c] => if c.isDigit then some (digitVal c, []) else none
  | c1 :: c2 :: rest =>
    if c1.isDigit then
      if c2.isDigit then some (digitVal c1 * 10 + digitVal c2, rest)
      else some (digitVal c1, c2 :: rest)
    else none

/-- Greedily take up to n leading digits as a list of digit values. -/
def takeDigits : Nat → List Char → List Nat × List Char
  | 0, cs => ([], cs)
  | _ + 1, [] => ([], [])
  | n + 1, c :: cs =>
    if c.isDigit then
      let p := takeDigits n cs
      (digitVal c :: p.1, p.2)
    else ([], c :: cs)

/-- Left-to-right value of a digit list. -/
def digitsVal (ds : List Nat) : Nat := ds.foldl (fun a d => a * 10 + d) 0

/-- Modelled from CPython: datetime.strptime with format
%Y-%m-%dT%H:%M:%S.%f — a 4-digit year, 1-2 digit numeric fields, a
1-to-6-digit fraction, the whole string consumed, then the constructor's
range validation.  (The %S regex also admits the leap seconds 60-61,
which the constructor then rejects; both paths are a parse failure
overall, so validation is modelled in one place.) -/
def pyStrptimeFrac (cs : List Char) : Option PyDateTime :=
  match readExactDigits 4 cs with
  | none => none
  | some (y, cs) =>
  match expectChar '-' cs with
  | none => none
  | some cs =>
  match readDigitsUpTo2 cs with
  | none => none
  | some (mo, cs) =>
  match expectChar '-' cs with
  | none => none
  | some cs =>
  match readDigitsUpTo2 cs with
  | none => none
  | some (d, cs) =>
  match expectChar 'T' cs with
  | none => none
  | some cs =>
  match readDigitsUpTo2 cs with
  | none => none
  | some (h, cs) =>
  match expectChar ':' cs with
  | none => none
  | some cs =>
  match readDigitsUpTo2 cs with
  | none => none
  | some (mi, cs) =>
  match expectChar ':' cs with
  | none => none
  | some cs =>
  match readDigitsUpTo2 cs with
  | none => none
  | some (s, cs) =>
  match expectChar '.' cs with
  | none => none
  | some cs =>
    let p := takeDigits 6 cs
    if p.1.length == 0 || !p.2.isEmpty then none
    else
      let us := digitsVal p.1 * 10 ^ (6 - p.1.length)
      if validPy y mo d h mi s us then some ⟨y, mo, d, h, mi, s, us⟩ else none

/-- Modelled from CPython: datetime.strptime with format
%Y-%m-%dT%H:%M:%S — as above but with no fractional part and the string
ending right after the seconds. -/
def pyStrptimeNoFrac (cs : List Char) : Option PyDateTime :=
  match readExactDigits 4 cs with
  | none => none
  | some (y, cs) =>
  match expectChar '-' cs with
  | none => none
  | some cs =>
  match readDigitsUpTo2 cs with
  | none => none
  | some (mo, cs) =>
  match expectChar '-' cs with
  | none => none
  | some cs =>
  match readDigitsUpTo2 cs with
  | none => none
  | some (d, cs) =>
  match expectChar 'T' cs with
  | none => none
  | some cs =>
  match readDigitsUpTo2 cs with
  | none => none
  | some (h, cs) =>
  match expectChar ':' cs with
  | none => none
  | some cs =>
  match readDigitsUpTo2 cs with
  | none => none
  | some (mi, cs) =>
  match expectChar ':' cs with
  | none => none
  | some cs =>
  match readDigitsUpTo2 cs with
  | none => none
  | some (s, cs) =>
    if !cs.isEmpty then none
    else if validPy y mo d h mi s 0 then some ⟨y, mo, d, h, mi, s, 0⟩ else none

/-- Modelled from CPython's pre-3.11 parse_hh_mm_ss_ff: a time component
HH[:MM[:SS[.FFF or .FFFFFF]]] with two-digit fields, the fraction exactly
three or six digits, the whole input consumed, each field range-checked.
Returns (hour, minute, second, microsecond). -/
def parseHMSF (cs : List Char) : Option (Nat × Nat × Nat × Nat) :=
  match readExactDigits 2 cs with
  | none => none
  | some (h, rest) =>
    if h > 23 then none
    else
      match rest with
      | [] => some (h, 0, 0, 0)
      | ':' :: rest2 =>
        match readExactDigits 2 rest2 with
        | none => none
        | some (mi, rest3) =>
          if mi > 59 then none
          else
            match rest3 with
            | [] => some (h, mi, 0, 0)
            | ':' :: rest4 =>
              match readExactDigits 2 rest4 with
              | none => none
              | some (s, rest5) =>
                if s > 59 then none
                else
                  match rest5 with
                  | [] => some (h, mi, s, 0)
                  | '.' :: frac =>
                    if (frac.length == 3 || frac.length == 6) &&
                       frac.all Char.isDigit then
                      some (h, mi, s, digitsVal (frac.map digitVal) *
                                      10 ^ (6 - frac.length))
                    else none
                  | _ => none
            | _ => none
      | _ => none

/-- Modelled from CPython's pre-3.11 datetime.fromisoformat: YYYY-MM-DD
with fixed widths, then optionally any single separator character and a
time, the time split from an optional offset at the first sign symbol;
the offset must be sign + HH:MM[:SS[.FFFFFF]] (total length 6, 9 or 16)
and is validated but does not shift the stored components (strftime
prints the parsed wall-clock fields unchanged). -/
def pyFromIsoformat (cs : List Char) : Option PyDateTime :=
  match readExactDigits 4 cs with
  | none => none
  | some (y, cs) =>
  match expectChar '-' cs with
  | none => none
  | some cs =>
  match readExactDigits 2 cs with
  | none => none
  | some (mo, cs) =>
  match expectChar '-' cs with
  | none => none
  | some cs =>
  match readExactDigits 2 cs with
  | none => none
  | some (d, cs) =>
    match cs with
    | [] =>
      if validPy y mo d 0 0 0 0 then some ⟨y, mo, d, 0, 0, 0, 0⟩ else none
    | _sep :: timetz =>
      let split := timetz.span fun c => !(c == '+' || c == '-')
      match parseHMSF split.1 with
      | none => none
      | some (h, mi, s, us) =>
        let tzOk :=
          match split.2 with
          | [] => true
          | _sign :: tzrest =>
            (tzrest.length == 5 || tzrest.length == 8 || tzrest.length == 15) &&
            (parseHMSF tzrest).isSome
        if tzOk && validPy y mo d h mi s us then
          some ⟨y, mo, d, h, mi, s, us⟩
        else none

/-- Python str.replace applied with the single-character pattern Z: every
occurrence of Z becomes +00:00. -/
def replaceZall (cs : List Char) : List Char :=
  cs.flatMap fun c => if c == 'Z' then ['+', '0', '0', ':', '0', '0'] else [c]

/-- Fixed-width zero-padded decimal renderings used by strftime. -/
def pad2 (n : Nat) : List Char := [Nat.digitChar (n / 10 % 10), Nat.digitChar (n % 10)]

/-- Four-digit zero-padded rendering (years 1000-9999 print identically on
every platform; CPython delegates smaller years to the libc, which the
properties below never exercise). -/
def pad4 (n : Nat) : List Char :=
  [Nat.digitChar (n / 1000 % 10), Nat.digitChar (n / 100 % 10),
   Nat.digitChar (n / 10 % 10), Nat.digitChar (n % 10)]

/-- dt.strftime with format %Y-%m-%d %H:%M:%S: the MySQL-native rendering
returned to the INSERT. -/
def pyStrftimeMysql (dt : PyDateTime) : String :=
  String.mk (pad4 dt.year ++ '-' :: pad2 dt.month ++ '-' :: pad2 dt.day ++
             ' ' :: pad2 dt.hour ++ ':' :: pad2 dt.minute ++ ':' :: pad2 dt.second)

/-- convert_to_mysql_datetime (users.py lines 1003-1038), the helper inside
create_user_schedule: if the string ends with Z, replace every Z with
+00:00; route strings containing a plus sign or more than two dashes to
fromisoformat and the rest to strptime with the fractional format, then
the fraction-free format; render the parsed value as
YYYY-MM-DD HH:MM:SS, or raise 400 when nothing parses.  The Python error
detail also appends the inner exception text, which is not modelled. -/
def convert_to_mysql_datetime (iso_string : String) : Except Err String :=
  let cs0 := iso_string.data
  let cs := if cs0.getLast? == some 'Z' then replaceZall cs0 else cs0
  let parsed : Option PyDateTime :=
    if cs.contains '+' || cs.count '-' > 2 then
      pyFromIsoformat cs
    else
      match pyStrptimeFrac cs with
      | some dt => some dt
      | none => pyStrptimeNoFrac cs
  match parsed with
  | some dt => .ok (pyStrftimeMysql dt)
  | none => .error ⟨400, "Invalid datetime format: " ++ String.mk cs⟩

/-- The rendered fractional-second part: empty, or a dot and digit run. -/
def fracChars : Option (List Nat) → List Char
  | none => []
  | some ds => '.' :: ds.map Nat.digitChar

/-- The canonical ISO-8601 body (everything but an optional Z suffix):
zero-padded date, the T separator, zero-padded time, optional fraction. -/
def isoBody (y mo d h mi s : Nat) (frac : Option (List Nat)) : List Char :=
  pad4 y ++ '-' :: (pad2 mo ++ '-' :: (pad2 d ++ 'T' ::
    (pad2 h ++ ':' :: (pad2 mi ++ ':' :: (pad2 s ++ fracChars frac)))))

/-- The canonical ISO-8601 rendering the claim quantifies over: zero-padded
date and time, an optional fractional-second digit run, an optional Z
suffix. -/
def isoRender (y mo d h mi s : Nat) (frac : Option (List Nat)) (z : Bool) :
    String :=
  String.mk (isoBody y mo d h mi s frac ++ (if z then ['Z'] else []))

/-- The microsecond value a rendered fraction parses to. -/
def fracUs : Option (List Nat) → Nat
  | none => 0
  | some ds => digitsVal ds * 10 ^ (6 - ds.length)

/-- The row inserted by a successful send_friend_request. -/
def sentRow (db : DB) (a t : Nat) : Friendship :=
  { friendship_id := db.nextFriendshipId
    user_id_1 := min a t
    user_id_2 := max a t
    requested_by := a
    status := FStatus.pending }

/-- The store state left by a successful accept_friend_request: the UPDATE
sets status to accepted on every row with the given id. -/
def acceptedDB (db : DB) (fid : Nat) : DB :=
  { db with friendships := db.friendships.map fun g =>
      if g.friendship_id == fid then { g with status := FStatus.accepted } else g }

/-- The store state left by a successful reject_friend_request or
remove_friend: the DELETE drops every row with the given id. -/
def deletedDB (db : DB) (fid : Nat) : DB :=
  { db with friendships := db.friendships.filter fun g => !(g.friendship_id == fid) }

/-- A result with the error projected to its status code, for comparing two
endpoints that differ only in their detail strings. -/
def outcomeCode {α : Type} : Except Err α → Except Nat α
  | .ok v => .ok v
  | .error e => .error e.code

/-- Concrete users for the closed witness instances. -/
def userA : User :=
  { user_id := 1, firebase_uid := "uid-a", first_name := "Alice",
    last_name := "Ang", username := "alice", email := "alice at example",
    profile_picture := "", role := "user" }

/-- Second concrete user. -/
def userB : User :=
  { user_id := 2, firebase_uid := "uid-b", first_name := "Bob",
    last_name := "Byrd", username := "bob", email := "bob at example",
    profile_picture := "", role := "user" }

/-- Third concrete user, a non-participant. -/
def userC : User :=
  { user_id := 3, firebase_uid := "uid-c", first_name := "Cal",
    last_name := "Cole", username := "cal", email := "cal at example",
    profile_picture := "", role := "user" }

/-- A concrete store with three users and no friendships. -/
def dbEmpty : DB :=
  { users := [userA, userB, userC], friendships := [], interests := [],
    userInterests := [], schedules := [], nextFriendshipId := 1 }

/-- The concrete store after user 1's successful send to user 2. -/
def dbAfterSend : DB :=
  { dbEmpty with friendships := [sentRow dbEmpty 1 2], nextFriendshipId := 2 }

/-- A concrete store with one pending request from user 1 to user 2. -/
def dbPending : DB :=
  { dbEmpty with
      friendships := [{ friendship_id := 1, user_id_1 := 1, user_id_2 := 2,
                        requested_by := 1, status := FStatus.pending }],
      nextFriendshipId := 2 }

/-- A patch that only sets the role field, for the concrete instances. -/
def updRoleAdmin : UserUpdate :=
  { first_name := none, last_name := none, username := none, email := none,
    profile_picture := none, role := some "admin" }

/-- The concrete store after user 1 sets their own role to admin through
the ordinary update path. -/
def dbRoleChanged : DB :=
  { dbEmpty with users := [{ userA with role := "admin" }, userB, userC] }

/-- A concrete store with a one-entry interest catalog and a prior interest
association for user 1. -/
def dbInterestWorld : DB :=
  { dbEmpty with
      interests := [{ interest_id := 1, interest_name := "music" }],
      userInterests := [{ user_id := 1, interest_id := 7 }] }

/-! Invariant preservation for the Friendship Engine (claim C1 support). -/

/-- The per-row part of FriendInv, restated for reuse. -/
lemma friendInv_row (db : DB) (h : FriendInv db) {f : Friendship}
    (hf : f ∈ db.friendships) :
    f.user_id_1 < f.user_id_2 ∧
    (f.requested_by = f.user_id_1 ∨ f.requested_by = f.user_id_2) := by
  obtain ⟨h1, -⟩ := h
  exact ⟨(h1 f hf).2.2.1, (h1 f hf).2.2.2⟩

/-- send_friend_request preserves the Friendships invariant. -/
lemma send_preserves_inv (uid : String) (t : Nat) (db : DB)
    (h : FriendInv db) :
    FriendInv (stateAfter (send_friend_request uid t db) db) := by
  unfold send_friend_request
  cases hcu : findUserByUid db uid with
  | none => simpa [stateAfter]
  | some current =>
    cases htg : findUserById db t with
    | none => simpa [stateAfter]
    | some tu =>
      by_cases heq : current.user_id = t
      · simpa [heq, stateAfter]
      · have hbe : (current.user_id == t) = false := by
          simpa using heq
        simp only [hbe, Bool.false_eq_true, if_false]
        cases hfp : findPairRow db current.user_id t with
        | some ex =>
          cases hst : ex.status <;> simpa [hst, stateAfter]
        | none =>
          have hnone : ∀ g ∈ db.friendships,
              ¬ pairPred current.user_id t g = true := by
            simpa [findPairRow, List.find?_eq_none] using hfp
          simp only [stateAfter]
          constructor
          · intro f hf
            rcases List.mem_append.mp hf with hf | hf
            · exact h.1 f hf
            · have hf' : f = { friendship_id := db.nextFriendshipId,
                               user_id_1 := min current.user_id t,
                               user_id_2 := max current.user_id t,
                               requested_by := current.user_id,
                               status := FStatus.pending } := by
                simpa using hf

              subst hf'
              refine ⟨?_, ?_, ?_, ?_⟩ <;> simp <;> omega
          · rw [List.pairwise_append]
            refine ⟨h.2, by simp, ?_⟩
            intro g hg r hr
            have hr' : r = { friendship_id := db.nextFriendshipId,
                             user_id_1 := min current.user_id t,
                             user_id_2 := max current.user_id t,
                             requested_by := current.user_id,
                             status := FStatus.pending } := by
              simpa using hr
            subst hr'
            have hp := hnone g hg
            have hrow := friendInv_row db h hg
            simp only [pairPred, Bool.or_eq_true, Bool.and_eq_true,
              beq_iff_eq] at hp
            intro hsp
            rcases hsp with ⟨e1, e2⟩ | ⟨e1, e2⟩ <;> simp at e1 e2 <;> omega

/-- accept_friend_request preserves the Friendships invariant. -/
lemma accept_preserves_inv (uid : String) (fid : Nat) (db : DB)
    (h : FriendInv db) :
    FriendInv (stateAfter (accept_friend_request uid fid db) db) := by
  unfold accept_friend_request
  cases hcu : findUserByUid db uid with
  | none => simpa [stateAfter]
  | some current =>
    cases hff : findFriendship db fid with
    | none => simpa [stateAfter]
    | some friendship =>
      by_cases hpart : friendship.user_id_1 != current.user_id &&
          friendship.user_id_2 != current.user_id
      · simpa [hpart, stateAfter]
      · simp only [hpart, Bool.false_eq_true, if_false]
        by_cases hst : friendship.status != FStatus.pending
        · simpa [hst, stateAfter]
        · simp only [hst, Bool.false_eq_true, if_false, stateAfter]
          constructor
          · intro f hf
            rcases List.mem_map.mp hf with ⟨g, hg, hgf⟩
            have hrow := h.1 g hg
            subst hgf
            by_cases hid : g.friendship_id == fid <;> simpa [hid] using hrow
          · refine h.2.map _ (fun a b hab => ?_)
            intro hsp
            apply hab
            by_cases ha : a.friendship_id == fid <;>
              by_cases hb : b.friendship_id == fid <;>
              simpa [samePair, ha, hb] using hsp

/-- reject_friend_request preserves the Friendships invariant. -/
lemma reject_preserves_inv (uid : String) (fid : Nat) (db : DB)
    (h : FriendInv db) :
    FriendInv (stateAfter (reject_friend_request uid fid db) db) := by
  unfold reject_friend_request
  cases hcu : findUserByUid db uid with
  | none => simpa [stateAfter]
  | some current =>
    cases hff : findFriendship db fid with
    | none => simpa [stateAfter]
    | some friendship =>
      by_cases hpart : friendship.user_id_1 != current.user_id &&
          friendship.user_id_2 != current.user_id
      · simpa [hpart, stateAfter]
      · simp only [hpart, Bool.false_eq_true, if_false, stateAfter]
        exact ⟨fun f hf => h.1 f (List.mem_of_mem_filter hf),
               h.2.sublist (List.filter_sublist _)⟩

/-- remove_friend preserves the Friendships invariant. -/
lemma remove_preserves_inv (uid : String) (fid : Nat) (db : DB)
    (h : FriendInv db) :
    FriendInv (stateAfter (remove_friend uid fid db) db) := by
  unfold remove_friend
  cases hcu : findUserByUid db uid with
  | none => simpa [stateAfter]
  | some current =>
    cases hff : findFriendship db fid with
    | none => simpa [stateAfter]
    | some friendship =>
      by_cases hpart : friendship.user_id_1 != current.user_id &&
          friendship.user_id_2 != current.user_id
      · simpa [hpart, stateAfter]
      · simp only [hpart, Bool.false_eq_true, if_false, stateAfter]
        exact ⟨fun f hf => h.1 f (List.mem_of_mem_filter hf),
               h.2.sublist (List.filter_sublist _)⟩

/-- Every engine operation preserves the Friendships invariant. -/
lemma applyOp_preserves_inv (db : DB) (op : Op) (h : FriendInv db) :
    FriendInv (applyOp db op) := by
  cases op with
  | send uid t => exact send_preserves_inv uid t db h
  | accept uid fid => exact accept_preserves_inv uid fid db h
  | reject uid fid => exact reject_preserves_inv uid fid db h
  | remove uid fid => exact remove_preserves_inv uid fid db h

/-- Operation sequences preserve the Friendships invariant. -/
lemma runOps_preserves_inv (ops : List Op) (db : DB) (h : FriendInv db) :
    FriendInv (runOps db ops) := by
  induction ops generalizing db with
  | nil => exact h
  | cons op ops ih => exact ih (applyOp db op) (applyOp_preserves_inv db op h)

/-- Inversion of a successful send_friend_request: success happens exactly
in the no-existing-row branch and inserts the canonical row. -/
lemma send_ok_inversion (db : DB) (uid : String) (current : User) (t : Nat)
    (row : Friendship) (db' : DB)
    (hcu : findUserByUid db uid = some current)
    (hok : send_friend_request uid t db = .ok (row, db')) :
    row = sentRow db current.user_id t ∧
    db' = { db with friendships := db.friendships ++ [sentRow db current.user_id t],
                    nextFriendshipId := db.nextFriendshipId + 1 } ∧
    findPairRow db current.user_id t = none ∧
    current.user_id ≠ t := by
  unfold send_friend_request at hok
  rw [hcu] at hok
  cases htg : findUserById db t with
  | none => rw [htg] at hok; exact absurd hok (by simp)
  | some tu =>
    rw [htg] at hok
    by_cases heq : current.user_id = t
    · simp [heq] at hok
    · have hbe : (current.user_id == t) = false := by simpa using heq
      simp only [hbe, Bool.false_eq_true, if_false] at hok
      cases hfp : findPairRow db current.user_id t with
      | some ex =>
        rw [hfp] at hok
        cases hst : ex.status <;> simp [hst] at hok
      | none =>
        rw [hfp] at hok
        simp only [Except.ok.injEq, Prod.mk.injEq] at hok
        exact ⟨hok.1.symm, by rw [← hok.2]; rfl, rfl, heq⟩

/-- C1: starting from an empty Friendships table, every state reachable by
any sequence of engine operations (send, accept, reject, remove) has at
most one row per unordered pair, every row canonically ordered with
user_id_1 the min and user_id_2 the max of the pair (hence strictly
ordered, no self-friendship), and requested_by one of the two
participants. -/
theorem c1_friendship_invariant (users : List User) (ints : List Interest)
    (uis : List UserInterest) (scheds : List Schedule) (nid : Nat)
    (ops : List Op) :
    FriendInv (runOps ⟨users, [], ints, uis, scheds, nid⟩ ops) :=
  runOps_preserves_inv ops _ ⟨by simp, by simp⟩

/-- C2: for an existing initiator and existing target with target distinct
from the initiator, send_friend_request keys on the unordered-pair lookup:
an accepted row yields the already-friends 400, a pending row yields the
request-already-pending 400 whoever initiated it, and no row yields
insertion of exactly one new canonical row (user_id_1 the min, user_id_2
the max, requested_by the initiator, status pending); consequently a
successful send from A to B makes the reverse send from B to A fail with
the pending conflict. -/
theorem c2_send_request_characterization
    (db : DB) (uid : String) (current tu : User) (t : Nat)
    (hcu : findUserByUid db uid = some current)
    (htg : findUserById db t = some tu)
    (hne : current.user_id ≠ t) :
    (∀ ex, findPairRow db current.user_id t = some ex →
       (ex.status = FStatus.accepted →
          send_friend_request uid t db =
            .error ⟨400, "You are already friends with this user"⟩) ∧
       (ex.status = FStatus.pending →
          send_friend_request uid t db =
            .error ⟨400, "Friend request already pending"⟩)) ∧
    (findPairRow db current.user_id t = none →
       send_friend_request uid t db =
         .ok (sentRow db current.user_id t,
              { db with friendships := db.friendships ++ [sentRow db current.user_id t],
                        nextFriendshipId := db.nextFriendshipId + 1 })) ∧
    (∀ uid2 current2 row db',
       send_friend_request uid t db = .ok (row, db') →
       findUserByUid db uid2 = some current2 →
       current2.user_id = t →
       send_friend_request uid2 current.user_id db' =
         .error ⟨400, "Friend request already pending"⟩) := by
  have hbe : (current.user_id == t) = false := by simpa using hne
  refine ⟨?_, ?_, ?_⟩
  · intro ex hfp
    constructor <;> intro hst <;>
      simp [send_friend_request, hcu, htg, hbe, hfp, hst]
  · intro hfp
    simp [send_friend_request, hcu, htg, hbe, hfp, sentRow]
  · intro uid2 current2 row db' hok hcu2 ht2
    obtain ⟨hrow, hdb', hfp, -⟩ := send_ok_inversion db uid current t row db' hcu hok
    have husers : db'.users = db.users := by rw [hdb']
    have hfr : db'.friendships =
        db.friendships ++ [sentRow db current.user_id t] := by rw [hdb']
    have hcu2' : findUserByUid db' uid2 = some current2 := by
      unfold findUserByUid; rw [husers]; exact hcu2
    have hcurmem : current ∈ db.users := List.mem_of_find?_eq_some hcu
    have htg2 : ∃ u, findUserById db' current.user_id = some u := by
      have hs : (db'.users.find? fun u => u.user_id == current.user_id).isSome := by
        rw [husers, List.find?_isSome]
        exact ⟨current, hcurmem, by simp⟩
      rcases Option.isSome_iff_exists.mp hs with ⟨u, hu⟩
      exact ⟨u, hu⟩
    obtain ⟨u, htgu⟩ := htg2
    have hne2 : ¬ current2.user_id = current.user_id := by
      rw [ht2]; exact fun hh => hne hh.symm
    have hbe2 : (current2.user_id == current.user_id) = false := by
      simpa using hne2
    have hnone : ∀ g ∈ db.friendships,
        ¬ pairPred current.user_id t g = true := by
      simpa [findPairRow, List.find?_eq_none] using hfp
    have hfp2 : findPairRow db' current2.user_id current.user_id =
        some (sentRow db current.user_id t) := by
      unfold findPairRow
      rw [hfr, List.find?_append]
      have h1 : db.friendships.find? (pairPred current2.user_id current.user_id)
          = none := by
        rw [List.find?_eq_none]
        intro g hg
        have hng := hnone g hg
        subst ht2
        simp only [pairPred, Bool.or_eq_true, Bool.and_eq_true, beq_iff_eq] at hng ⊢
        tauto
      rw [h1, Option.none_or]
      have hpp : pairPred current2.user_id current.user_id
          (sentRow db current.user_id t) = true := by
        subst ht2
        simp only [pairPred, sentRow, Bool.or_eq_true, Bool.and_eq_true, beq_iff_eq]
        omega
      simp [hpp]
    simp [send_friend_request, hcu2', htgu, hbe2, hfp2, sentRow]

/-- Witness for C2: in the concrete three-user store with no friendships,
user 1's send to user 2 succeeds and inserts the canonical pending row. -/
theorem c2_send_request_characterization_witness :
    send_friend_request "uid-a" 2 dbEmpty =
      .ok (sentRow dbEmpty 1 2,
           { dbEmpty with friendships := dbEmpty.friendships ++ [sentRow dbEmpty 1 2],
                          nextFriendshipId := dbEmpty.nextFriendshipId + 1 }) :=
  (c2_send_request_characterization dbEmpty "uid-a" userA userB 2
    (by decide) (by decide) (by decide)).2.1 (by decide)

/-- C3: with the caller resolved, accept_friend_request fails 404 when no
row has the id; fails 403 exactly when the row exists but the caller is
neither user_id_1 nor user_id_2 — participation is the whole check, so
the initiator of a pending row can accept their own request; fails 400
with the already-status message when the status is not pending, so a
second accept on the same id fails 400 rather than succeeding; and for a
participant on a pending row it sets the status to accepted. -/
theorem c3_accept_characterization
    (db : DB) (uid : String) (current : User) (fid : Nat)
    (hcu : findUserByUid db uid = some current) :
    (findFriendship db fid = none →
        accept_friend_request uid fid db =
          .error ⟨404, "Friend request not found"⟩) ∧
    (∀ f, findFriendship db fid = some f →
       (accept_friend_request uid fid db =
            .error ⟨403, "You can only accept friend requests sent to you"⟩ ↔
          (f.user_id_1 ≠ current.user_id ∧ f.user_id_2 ≠ current.user_id)) ∧
       ((f.user_id_1 = current.user_id ∨ f.user_id_2 = current.user_id) →
          f.status ≠ FStatus.pending →
          accept_friend_request uid fid db =
            .error ⟨400, "Friend request is already " ++ f.status.text⟩) ∧
       ((f.user_id_1 = current.user_id ∨ f.user_id_2 = current.user_id) →
          f.status = FStatus.pending →
          accept_friend_request uid fid db =
            .ok ({ f with status := FStatus.accepted }, acceptedDB db fid)) ∧
       (∀ f' db1, accept_friend_request uid fid db = .ok (f', db1) →
          accept_friend_request uid fid db1 =
            .error ⟨400, "Friend request is already accepted"⟩)) := by
  constructor
  · intro hff
    simp [accept_friend_request, hcu, hff]
  · intro f hff
    refine ⟨?_, ?_, ?_, ?_⟩
    · constructor
      · intro herr
        by_contra hcon
        push_neg at hcon
        have hpart : (f.user_id_1 != current.user_id &&
            f.user_id_2 != current.user_id) = false := by
          by_cases h1 : f.user_id_1 = current.user_id
          · simp [h1]
          · simp [h1, hcon h1]
        rw [accept_friend_request, hcu, hff] at herr
        simp only [hpart, Bool.false_eq_true, if_false] at herr
        by_cases hst : f.status != FStatus.pending <;> simp [hst] at herr
      · intro ⟨h1, h2⟩
        have hpart : (f.user_id_1 != current.user_id &&
            f.user_id_2 != current.user_id) = true := by simp [h1, h2]
        simp [accept_friend_request, hcu, hff, hpart]
    · intro hp hst
      have hpart : (f.user_id_1 != current.user_id &&
          f.user_id_2 != current.user_id) = false := by
        rcases hp with h | h <;> simp [h]
      have hst' : (f.status != FStatus.pending) = true := by simpa using hst
      simp [accept_friend_request, hcu, hff, hpart, hst']
    · intro hp hst
      have hpart : (f.user_id_1 != current.user_id &&
          f.user_id_2 != current.user_id) = false := by
        rcases hp with h | h <;> simp [h]
      simp [accept_friend_request, hcu, hff, hpart, hst, acceptedDB]
    · intro f' db1 hok
      rw [accept_friend_request, hcu, hff] at hok
      by_cases hpart : (f.user_id_1 != current.user_id &&
          f.user_id_2 != current.user_id) = true
      · simp [hpart] at hok
      · rw [Bool.not_eq_true] at hpart
        simp only [hpart, Bool.false_eq_true, if_false] at hok
        by_cases hst : (f.status != FStatus.pending) = true
        · simp [hst] at hok
        · rw [Bool.not_eq_true] at hst
          simp only [hst, Bool.false_eq_true, if_false, Except.ok.injEq,
            Prod.mk.injEq] at hok
          have hdb1 : db1 = acceptedDB db fid := hok.2.symm
          have hfid : (f.friendship_id == fid) = true :=
            List.find?_some (p := fun g : Friendship => g.friendship_id == fid)
              (by simpa [findFriendship] using hff)
          have hff1 : findFriendship db1 fid =
              some { f with status := FStatus.accepted } := by
            rw [hdb1]
            unfold findFriendship acceptedDB
            simp only [List.find?_map]
            have hcomp : ((fun g : Friendship => g.friendship_id == fid) ∘
                (fun g : Friendship => if g.friendship_id == fid
                   then { g with status := FStatus.accepted } else g)) =
                fun g : Friendship => g.friendship_id == fid := by
              funext g
              simp only [Function.comp_apply]
              by_cases hg : (g.friendship_id == fid) = true
              · rw [if_pos hg]
              · rw [if_neg hg]
            rw [hcomp]
            unfold findFriendship at hff
            rw [hff]
            have hfid' : f.friendship_id = fid := by simpa using hfid
            simp [hfid']
          have hpart1 : ({ f with status := FStatus.accepted }.user_id_1 !=
              current.user_id &&
              { f with status := FStatus.accepted }.user_id_2 !=
              current.user_id) = false := by simpa using hpart
          have hcu1 : findUserByUid db1 uid = some current := by
            unfold findUserByUid
            rw [hdb1]
            exact hcu
          simp [accept_friend_request, hcu1, hff1, hpart1, FStatus.text]

/-- Witness for C3: in the concrete one-pending-request store, user 2 (a
participant) accepting request 1 succeeds and sets the status. -/
theorem c3_accept_characterization_witness :
    accept_friend_request "uid-b" 1 dbPending =
      .ok ({ friendship_id := 1, user_id_1 := 1, user_id_2 := 2,
             requested_by := 1, status := FStatus.accepted },
           acceptedDB dbPending 1) :=
  ((c3_accept_characterization dbPending "uid-b" userB 1 (by decide)).2
    { friendship_id := 1, user_id_1 := 1, user_id_2 := 2,
      requested_by := 1, status := FStatus.pending }
    (by decide)).2.2.1 (by decide) (by decide)

/-- C5: reject_friend_request and remove_friend are one operation under two
names: for every caller, id and store they produce the same store state
and the same outcome (same success value, same failure status code; only
the 404/403 detail strings differ between the two routes). -/
theorem c5_reject_remove_equivalent (uid : String) (fid : Nat) (db : DB) :
    outcomeCode (reject_friend_request uid fid db) =
      outcomeCode (remove_friend uid fid db) ∧
    stateAfter (reject_friend_request uid fid db) db =
      stateAfter (remove_friend uid fid db) db := by
  unfold reject_friend_request remove_friend
  cases hcu : findUserByUid db uid with
  | none => simp [outcomeCode, stateAfter]
  | some current =>
    cases hff : findFriendship db fid with
    | none => simp [outcomeCode, stateAfter]
    | some friendship =>
      by_cases hpart : (friendship.user_id_1 != current.user_id &&
          friendship.user_id_2 != current.user_id) = true <;>
        simp [hpart, outcomeCode, stateAfter]

/-- C6: with the caller resolved, reject_friend_request fails 404 iff no
row has the id, fails 403 iff the row exists and the caller is neither
participant, and otherwise deletes the row unconditionally whatever its
status; both error outcomes leave the store unchanged. -/
theorem c6_reject_characterization
    (db : DB) (uid : String) (current : User) (fid : Nat)
    (hcu : findUserByUid db uid = some current) :
    (findFriendship db fid = none ↔
        reject_friend_request uid fid db =
          .error ⟨404, "Friend request not found"⟩) ∧
    (∀ f, findFriendship db fid = some f →
       (reject_friend_request uid fid db =
            .error ⟨403, "You can only reject friend requests you are involved in"⟩ ↔
          (f.user_id_1 ≠ current.user_id ∧ f.user_id_2 ≠ current.user_id)) ∧
       ((f.user_id_1 = current.user_id ∨ f.user_id_2 = current.user_id) →
          reject_friend_request uid fid db = .ok (fid, deletedDB db fid))) ∧
    (∀ e, reject_friend_request uid fid db = .error e →
       stateAfter (reject_friend_request uid fid db) db = db) := by
  refine ⟨?_, ?_, ?_⟩
  · constructor
    · intro hff
      simp [reject_friend_request, hcu, hff]
    · intro herr
      cases hff : findFriendship db fid with
      | none => rfl
      | some f =>
        rw [reject_friend_request, hcu, hff] at herr
        by_cases hpart : (f.user_id_1 != current.user_id &&
            f.user_id_2 != current.user_id) = true <;> simp [hpart] at herr
  · intro f hff
    constructor
    · constructor
      · intro herr
        by_contra hcon
        push_neg at hcon
        have hpart : (f.user_id_1 != current.user_id &&
            f.user_id_2 != current.user_id) = false := by
          by_cases h1 : f.user_id_1 = current.user_id
          · simp [h1]
          · simp [h1, hcon h1]
        rw [reject_friend_request, hcu, hff] at herr
        simp [hpart] at herr
      · intro ⟨h1, h2⟩
        have hpart : (f.user_id_1 != current.user_id &&
            f.user_id_2 != current.user_id) = true := by simp [h1, h2]
        simp [reject_friend_request, hcu, hff, hpart]
    · intro hp
      have hpart : (f.user_id_1 != current.user_id &&
          f.user_id_2 != current.user_id) = false := by
        rcases hp with h | h <;> simp [h]
      simp [reject_friend_request, hcu, hff, hpart, deletedDB]
  · intro e herr
    rw [herr]
    rfl

/-- Witness for C6: in the concrete one-pending-request store, user 1
rejecting (cancelling) request 1 deletes the row. -/
theorem c6_reject_characterization_witness :
    reject_friend_request "uid-a" 1 dbPending = .ok (1, deletedDB dbPending 1) :=
  ((c6_reject_characterization dbPending "uid-a" userA 1 (by decide)).2.1
    { friendship_id := 1, user_id_1 := 1, user_id_2 := 2,
      requested_by := 1, status := FStatus.pending }
    (by decide)).2 (by decide)

/-- Filtering helper: a filtered view of a table extended by one row,
restricted to a predicate no old row satisfies, is at most that row. -/
lemma filter_filter_append_singleton (p q : Friendship → Bool)
    (old : List Friendship) (sr : Friendship)
    (hold : ∀ g ∈ old, ¬ q g = true) :
    (List.filter p (old ++ [sr])).filter q =
      if p sr && q sr then [sr] else [] := by
  rw [List.filter_append, List.filter_append, List.filter_filter]
  have h1 : List.filter (fun a => q a && p a) old = [] := by
    rw [List.filter_eq_nil_iff]
    intro g hg
    simp [hold g hg]
  rw [h1]
  by_cases hp : p sr = true <;> by_cases hq : q sr = true <;>
    simp [List.filter, hp, hq]

/-- C4: with the caller resolved, the two pending-request endpoints return
exactly the incoming and outgoing filtered views, and every pending row
of which the caller is a participant appears in exactly one of the two
views — in incoming iff requested_by is not the caller, in outgoing iff
it is, never both and never neither.  Moreover after a successful send
from the caller to t over a pair with no prior row, the recipient's
incoming view holds exactly one row for that pair, whose rendered entry
names the caller as sender; the caller's outgoing view holds exactly one
row for that pair, whose entry names t as recipient; and the caller's
incoming view and the recipient's outgoing view hold no row for it. -/
theorem c4_pending_views_partition
    (db : DB) (uid : String) (current : User)
    (hcu : findUserByUid db uid = some current) :
    (get_pending_requests uid db =
       .ok ((pendingIncomingRows current.user_id db).map (mkPendingEntry db)) ∧
     get_sent_requests uid db =
       .ok ((pendingOutgoingRows current.user_id db).map (mkSentEntry db))) ∧
    (∀ f ∈ db.friendships, f.status = FStatus.pending →
       (f.user_id_1 = current.user_id ∨ f.user_id_2 = current.user_id) →
       ((f ∈ pendingIncomingRows current.user_id db ↔
           f.requested_by ≠ current.user_id) ∧
        (f ∈ pendingOutgoingRows current.user_id db ↔
           f.requested_by = current.user_id) ∧
        ¬(f ∈ pendingIncomingRows current.user_id db ∧
          f ∈ pendingOutgoingRows current.user_id db) ∧
        (f ∈ pendingIncomingRows current.user_id db ∨
         f ∈ pendingOutgoingRows current.user_id db))) ∧
    (∀ t row db', send_friend_request uid t db = .ok (row, db') →
       ((pendingIncomingRows t db').filter
           (pairPred current.user_id t) = [sentRow db current.user_id t] ∧
        (mkPendingEntry db' (sentRow db current.user_id t)).sender_user_id =
           current.user_id) ∧
       ((pendingOutgoingRows current.user_id db').filter
           (pairPred current.user_id t) = [sentRow db current.user_id t] ∧
        (mkSentEntry db' (sentRow db current.user_id t)).recipient_user_id = t) ∧
       (pendingIncomingRows current.user_id db').filter
           (pairPred current.user_id t) = [] ∧
       (pendingOutgoingRows t db').filter
           (pairPred current.user_id t) = []) := by
  refine ⟨⟨?_, ?_⟩, ?_, ?_⟩
  · simp [get_pending_requests, hcu]
  · simp [get_sent_requests, hcu]
  · intro f hf hst hp
    constructor
    · simp only [pendingIncomingRows, List.mem_filter, hf, true_and]
      constructor
      · intro hq
        simpa using (Bool.and_elim_right hq)
      · intro hq
        have h1 : (f.user_id_1 == current.user_id ||
            f.user_id_2 == current.user_id) = true := by
          rcases hp with h | h <;> simp [h]
        simp [h1, hst, hq]
    · constructor
      · simp only [pendingOutgoingRows, List.mem_filter, hf, true_and]
        constructor
        · intro hq
          simpa using (Bool.and_elim_right hq)
        · intro hq
          have h1 : (f.user_id_1 == current.user_id ||
              f.user_id_2 == current.user_id) = true := by
            rcases hp with h | h <;> simp [h]
          simp [h1, hst, hq]
      · constructor
        · rintro ⟨hin, hout⟩
          simp only [pendingIncomingRows, pendingOutgoingRows,
            List.mem_filter] at hin hout
          have h1 := Bool.and_elim_right hin.2
          have h2 := Bool.and_elim_right hout.2
          simp at h1 h2
          exact h1 h2
        · by_cases hq : f.requested_by = current.user_id
          · right
            simp only [pendingOutgoingRows, List.mem_filter, hf, true_and]
            have h1 : (f.user_id_1 == current.user_id ||
                f.user_id_2 == current.user_id) = true := by
              rcases hp with h | h <;> simp [h]
            simp [h1, hst, hq]
          · left
            simp only [pendingIncomingRows, List.mem_filter, hf, true_and]
            have h1 : (f.user_id_1 == current.user_id ||
                f.user_id_2 == current.user_id) = true := by
              rcases hp with h | h <;> simp [h]
            simp [h1, hst, hq]
  · intro t row db' hok
    obtain ⟨hrow, hdb', hfp, hne⟩ := send_ok_inversion db uid current t row db' hcu hok
    have hfr : db'.friendships =
        db.friendships ++ [sentRow db current.user_id t] := by rw [hdb']
    have hnone : ∀ g ∈ db.friendships,
        ¬ pairPred current.user_id t g = true := by
      simpa [findPairRow, List.find?_eq_none] using hfp
    have hqsr : pairPred current.user_id t (sentRow db current.user_id t) = true := by
      simp only [pairPred, sentRow, Bool.or_eq_true, Bool.and_eq_true, beq_iff_eq]
      omega
    refine ⟨⟨?_, ?_⟩, ⟨?_, ?_⟩, ?_, ?_⟩
    · unfold pendingIncomingRows
      rw [hfr, filter_filter_append_singleton _ _ _ _ hnone]
      have hp : ((sentRow db current.user_id t).user_id_1 == t ||
          (sentRow db current.user_id t).user_id_2 == t) &&
          (sentRow db current.user_id t).status == FStatus.pending &&
          (sentRow db current.user_id t).requested_by != t := by
        simp only [sentRow, Bool.and_eq_true, Bool.or_eq_true, beq_iff_eq,
          bne_iff_ne, ne_eq]
        refine ⟨⟨?_, trivial⟩, hne⟩
        omega
      simp [hp, hqsr]
    · rfl
    · unfold pendingOutgoingRows
      rw [hfr, filter_filter_append_singleton _ _ _ _ hnone]
      have hp : ((sentRow db current.user_id t).user_id_1 == current.user_id ||
          (sentRow db current.user_id t).user_id_2 == current.user_id) &&
          (sentRow db current.user_id t).status == FStatus.pending &&
          (sentRow db current.user_id t).requested_by == current.user_id := by
        simp only [sentRow, Bool.and_eq_true, Bool.or_eq_true, beq_iff_eq]
        refine ⟨⟨?_, trivial⟩, trivial⟩
        omega
      simp [hp, hqsr]
    · simp only [mkSentEntry, sentRow]
      by_cases hlt : current.user_id < t
      · have h1 : (current.user_id == min current.user_id t) = true := by
          simp only [beq_iff_eq]
          omega
        simp only [h1, if_true]
        omega
      · have h1 : (current.user_id == min current.user_id t) = false := by
          simp only [beq_eq_false_iff_ne, ne_eq]
          omega
        simp only [h1, Bool.false_eq_true, if_false]
        omega
    · unfold pendingIncomingRows
      rw [hfr, filter_filter_append_singleton _ _ _ _ hnone]
      have hp : (((sentRow db current.user_id t).user_id_1 == current.user_id ||
          (sentRow db current.user_id t).user_id_2 == current.user_id) &&
          (sentRow db current.user_id t).status == FStatus.pending &&
          (sentRow db current.user_id t).requested_by != current.user_id) = false := by
        simp [sentRow]
      simp [hp]
    · unfold pendingOutgoingRows
      rw [hfr, filter_filter_append_singleton _ _ _ _ hnone]
      have hp : (((sentRow db current.user_id t).user_id_1 == t ||
          (sentRow db current.user_id t).user_id_2 == t) &&
          (sentRow db current.user_id t).status == FStatus.pending &&
          (sentRow db current.user_id t).requested_by == t) = false := by
        have h2 : ((sentRow db current.user_id t).requested_by == t) = false := by
          simp only [sentRow, beq_eq_false_iff_ne, ne_eq]
          exact hne
        simp [h2]
      simp [hp]

/-- Witness for C4: after user 1's send to user 2 in the concrete store,
the four pending views partition as claimed. -/
theorem c4_pending_views_partition_witness :
    ((pendingIncomingRows 2 dbAfterSend).filter (pairPred 1 2) =
        [sentRow dbEmpty 1 2] ∧
     (mkPendingEntry dbAfterSend (sentRow dbEmpty 1 2)).sender_user_id = 1) ∧
    ((pendingOutgoingRows 1 dbAfterSend).filter (pairPred 1 2) =
        [sentRow dbEmpty 1 2] ∧
     (mkSentEntry dbAfterSend (sentRow dbEmpty 1 2)).recipient_user_id = 2) ∧
    (pendingIncomingRows 1 dbAfterSend).filter (pairPred 1 2) = [] ∧
    (pendingOutgoingRows 2 dbAfterSend).filter (pairPred 1 2) = [] :=
  (c4_pending_views_partition dbEmpty "uid-a" userA (by decide)).2.2 2
    (sentRow dbEmpty 1 2) dbAfterSend rfl

/-- Counterexample for C7: user 1, whose stored role is "user" (not an
admin), submits a role change through the ordinary owner-scoped update
path and it takes effect — the stored role becomes "admin" with no
privilege check involved, contradicting the claim that the role field
cannot be changed this way. -/
theorem c7_role_update_counterexample :
    userA.role = "user" ∧
    update_user "uid-a" 1 updRoleAdmin dbEmpty = .ok (1, dbRoleChanged) ∧
    (findUserById dbRoleChanged 1).map User.role = some "admin" := by
  exact ⟨rfl, rfl, by decide⟩

/-- C7 amended: the owner-scoped update path applies a submitted role
change like any other field — for any resolved caller updating their own
existing record with a patch whose role field is set, update_user
succeeds with no admin privilege check (nothing about the caller's role
is consulted), and the applied patch stores the submitted role value. -/
theorem c7_role_update_amended
    (db : DB) (uid : String) (current u : User) (user_id : Nat)
    (upd : UserUpdate) (r : String)
    (hcu : findUserByUid db uid = some current)
    (hown : current.user_id = user_id)
    (hrow : findUserById db user_id = some u)
    (hrole : upd.role = some r) :
    update_user uid user_id upd db =
      .ok (user_id, { db with users := db.users.map fun v =>
          if v.user_id == user_id then applyUserUpdate upd v else v }) ∧
    ∀ v, (applyUserUpdate upd v).role = r := by
  constructor
  · have hbe : (current.user_id != user_id) = false := by simp [hown]
    have hfield : hasUpdateField upd = true := by
      simp [hasUpdateField, hrole]
    simp [update_user, hcu, hbe, hrow, hfield]
  · intro v
    rcases upd with ⟨f1, f2, f3, f4, f5, f6⟩
    simp only [UserUpdate.role] at hrole
    subst hrole
    cases f1 <;> cases f2 <;> cases f3 <;> cases f4 <;> cases f5 <;>
      simp [applyUserUpdate]

/-- Witness for C7's amended theorem: the concrete owner role update
succeeds through the ordinary path. -/
theorem c7_role_update_amended_witness :
    update_user "uid-a" 1 updRoleAdmin dbEmpty =
      .ok (1, { dbEmpty with users := dbEmpty.users.map fun v =>
          if v.user_id == 1 then applyUserUpdate updRoleAdmin v else v }) :=
  (c7_role_update_amended dbEmpty "uid-a" userA userA 1 updRoleAdmin "admin"
    (by decide) (by decide) (by decide) (by decide)).1

/-- The per-id loop on a list whose first unknown id is bad: all earlier
inserts happen, then the 400 fires with them still in place. -/
lemma insertInterestsLoop_stops (user_id bad : Nat) (rest : List Nat)
    (good : List Nat) (db1 : DB)
    (hgood : ∀ i ∈ good, (db1.interests.find? fun c => c.interest_id == i).isSome)
    (hbad : db1.interests.find? (fun c => c.interest_id == bad) = none) :
    insertInterestsLoop user_id (good ++ bad :: rest) db1 =
      (.error ⟨400, "Interest " ++ toString bad ++ " not found"⟩,
       { db1 with userInterests := (db1.userInterests ++
           good.map (fun i => ⟨user_id, i⟩)) }) := by
  induction good generalizing db1 with
  | nil =>
    simp [insertInterestsLoop, hbad]
  | cons i good ih =>
    have hi : (db1.interests.find? fun c => c.interest_id == i).isSome :=
      hgood i (by simp)
    rcases Option.isSome_iff_exists.mp hi with ⟨c, hc⟩
    rw [List.cons_append, insertInterestsLoop, hc]
    rw [ih { db1 with userInterests := db1.userInterests ++ [⟨user_id, i⟩] }
        (fun j hj => hgood j (by simp [hj])) hbad]
    simp

/-- C8: replacing a user's interests with a list whose first unknown id is
bad fails with the 400 interest-not-found error, and the store is left
partially replaced: the user's prior associations are deleted and the
join rows for the ids before the failing one remain — not the prior set.
The hypotheses say every id before bad is in the catalog and bad is not. -/
theorem c8_interest_partial_replacement
    (db : DB) (uid : String) (current : User) (user_id : Nat)
    (good : List Nat) (bad : Nat) (rest : List Nat)
    (hcu : findUserByUid db uid = some current)
    (hown : current.user_id = user_id)
    (hgood : ∀ i ∈ good, (db.interests.find? fun c => c.interest_id == i).isSome)
    (hbad : db.interests.find? (fun c => c.interest_id == bad) = none) :
    add_user_interests uid user_id (good ++ bad :: rest) db =
      (.error ⟨400, "Interest " ++ toString bad ++ " not found"⟩,
       { db with userInterests := ((db.userInterests.filter fun r =>
           !(r.user_id == user_id)) ++
           good.map (fun i => ⟨user_id, i⟩)) }) := by
  have hbe : (current.user_id != user_id) = false := by simp [hown]
  rw [add_user_interests, hcu]
  simp only [hbe, Bool.false_eq_true, if_false]
  rw [insertInterestsLoop_stops user_id bad rest good
      { db with userInterests := db.userInterests.filter fun r => !(r.user_id == user_id) }
      hgood hbad]

/-- Witness for C8: in the concrete store (catalog holds interest 1, user 1
already has an association), replacing with the ids 1 then 99 fails at 99
and leaves only the freshly inserted association for interest 1. -/
theorem c8_interest_partial_replacement_witness :
    add_user_interests "uid-a" 1 ([1] ++ 99 :: []) dbInterestWorld =
      (.error ⟨400, "Interest " ++ toString 99 ++ " not found"⟩,
       { dbInterestWorld with userInterests := ((dbInterestWorld.userInterests.filter
           fun r => !(r.user_id == 1)) ++
           [1].map (fun i => ⟨1, i⟩)) }) :=
  c8_interest_partial_replacement dbInterestWorld "uid-a" userA 1 [1] 99 []
    (by decide) (by decide) (by decide) (by decide)

/-- C10: for the resolved owner, delete_user_schedule always succeeds with
the deleted-status body carrying the requested id; when no row matches
both the schedule id and the owner (including right after a deletion) the
whole store is left unchanged and the response is the same as for a real
deletion; and performing the deletion twice gives the same final state
and response as performing it once. -/
theorem c10_schedule_delete_idempotent
    (db : DB) (uid : String) (current : User) (user_id sid : Nat)
    (hcu : findUserByUid db uid = some current)
    (hown : current.user_id = user_id) :
    (delete_user_schedule uid user_id sid db =
       .ok (sid, { db with schedules := db.schedules.filter fun s =>
           !(s.schedule_id == sid && s.user_id == user_id) })) ∧
    ((∀ s ∈ db.schedules, ¬(s.schedule_id = sid ∧ s.user_id = user_id)) →
       delete_user_schedule uid user_id sid db = .ok (sid, db)) ∧
    (∀ db', delete_user_schedule uid user_id sid db = .ok (sid, db') →
       delete_user_schedule uid user_id sid db' = .ok (sid, db')) := by
  have hbe : (current.user_id != user_id) = false := by simp [hown]
  have hmain : delete_user_schedule uid user_id sid db =
      .ok (sid, { db with schedules := db.schedules.filter fun s =>
          !(s.schedule_id == sid && s.user_id == user_id) }) := by
    simp [delete_user_schedule, hcu, hbe]
  refine ⟨hmain, ?_, ?_⟩
  · intro hnone
    rw [hmain]
    have hfid : (db.schedules.filter fun s =>
        !(s.schedule_id == sid && s.user_id == user_id)) = db.schedules := by
      rw [List.filter_eq_self]
      intro s hs
      have := hnone s hs
      simp only [Bool.not_eq_eq_eq_not, Bool.not_true, Bool.and_eq_false_iff,
        beq_eq_false_iff_ne, ne_eq]
      by_cases h1 : s.schedule_id = sid
      · right; exact fun h2 => this ⟨h1, h2⟩
      · left; exact h1
    rw [hfid]
  · intro db' hdel
    rw [hmain] at hdel
    simp only [Except.ok.injEq, Prod.mk.injEq, true_and] at hdel
    have hcu' : findUserByUid db' uid = some current := by
      unfold findUserByUid
      rw [← hdel]
      exact hcu
    have hmain' : delete_user_schedule uid user_id sid db' =
        .ok (sid, { db' with schedules := db'.schedules.filter fun s =>
            !(s.schedule_id == sid && s.user_id == user_id) }) := by
      simp [delete_user_schedule, hcu', hbe]
    rw [hmain']
    have hirr : (db'.schedules.filter fun s =>
        !(s.schedule_id == sid && s.user_id == user_id)) = db'.schedules := by
      rw [← hdel]
      show ((db.schedules.filter _).filter _) = _
      rw [List.filter_filter]
      congr 1
      funext a
      rw [Bool.and_self]
    rw [hirr]

/-- Witness for C10: deleting a schedule id that no row carries in the
concrete store succeeds with the deleted-status body and changes nothing. -/
theorem c10_schedule_delete_idempotent_witness :
    delete_user_schedule "uid-a" 1 7 dbEmpty = .ok (7, dbEmpty) :=
  (c10_schedule_delete_idempotent dbEmpty "uid-a" userA 1 7
    (by decide) (by decide)).2.1 (by simp [dbEmpty])

/-! Supporting lemmas for the datetime conversion (claim C9). -/

/-- Rendered decimal digits are digit characters. -/
lemma digitChar_isDigit (x : Nat) (hx : x < 10) :
    (Nat.digitChar x).isDigit = true := by
  interval_cases x <;> decide

/-- Reading back a rendered decimal digit gives the digit. -/
lemma digitVal_digitChar (x : Nat) (hx : x < 10) :
    digitVal (Nat.digitChar x) = x := by
  interval_cases x <;> decide

/-- Both characters of a two-digit rendering are digits. -/
lemma pad2_isDigit (n : Nat) : ∀ c ∈ pad2 n, c.isDigit = true := by
  intro c hc
  simp only [pad2, List.mem_cons, List.not_mem_nil, or_false] at hc
  rcases hc with h | h <;> subst h <;>
    exact digitChar_isDigit _ (by omega)

/-- All characters of a four-digit rendering are digits. -/
lemma pad4_isDigit (n : Nat) : ∀ c ∈ pad4 n, c.isDigit = true := by
  intro c hc
  simp only [pad4, List.mem_cons, List.not_mem_nil, or_false] at hc
  rcases hc with h | h | h | h <;> subst h <;>
    exact digitChar_isDigit _ (by omega)

/-- All characters of a rendered digit run are digits. -/
lemma mapDigitChar_isDigit (ds : List Nat) (hds : ∀ x ∈ ds, x < 10) :
    ∀ c ∈ ds.map Nat.digitChar, c.isDigit = true := by
  intro c hc
  rcases List.mem_map.mp hc with ⟨x, hx, hcx⟩
  subst hcx
  exact digitChar_isDigit x (hds x hx)

/-- The fixed-width reader inverts the four-digit rendering. -/
lemma readExactDigits_pad4 (n : Nat) (hn : n < 10000) (rest : List Char) :
    readExactDigits 4 (pad4 n ++ rest) = some (n, rest) := by
  have e0 : (Nat.digitChar (n / 1000 % 10)).isDigit = true :=
    digitChar_isDigit _ (by omega)
  have e1 : (Nat.digitChar (n / 100 % 10)).isDigit = true :=
    digitChar_isDigit _ (by omega)
  have e2 : (Nat.digitChar (n / 10 % 10)).isDigit = true :=
    digitChar_isDigit _ (by omega)
  have e3 : (Nat.digitChar (n % 10)).isDigit = true :=
    digitChar_isDigit _ (by omega)
  have v0 : digitVal (Nat.digitChar (n / 1000 % 10)) = n / 1000 % 10 :=
    digitVal_digitChar _ (by omega)
  have v1 : digitVal (Nat.digitChar (n / 100 % 10)) = n / 100 % 10 :=
    digitVal_digitChar _ (by omega)
  have v2 : digitVal (Nat.digitChar (n / 10 % 10)) = n / 10 % 10 :=
    digitVal_digitChar _ (by omega)
  have v3 : digitVal (Nat.digitChar (n % 10)) = n % 10 :=
    digitVal_digitChar _ (by omega)
  simp only [pad4, List.cons_append, List.nil_append, readExactDigits,
    e0, e1, e2, e3, if_true]
  rw [v0, v1, v2, v3]
  simp only [Option.some.injEq, Prod.mk.injEq, List.append_eq, List.nil_append,
    pow_zero, pow_one, mul_one, add_zero,
    show (10 : Nat) ^ 2 = 100 by norm_num, show (10 : Nat) ^ 3 = 1000 by norm_num]
  exact ⟨by omega, trivial⟩

/-- The fixed-width reader inverts the two-digit rendering. -/
lemma readExactDigits_pad2 (n : Nat) (hn : n < 100) (rest : List Char) :
    readExactDigits 2 (pad2 n ++ rest) = some (n, rest) := by
  have e0 : (Nat.digitChar (n / 10 % 10)).isDigit = true :=
    digitChar_isDigit _ (by omega)
  have e1 : (Nat.digitChar (n % 10)).isDigit = true :=
    digitChar_isDigit _ (by omega)
  have v0 : digitVal (Nat.digitChar (n / 10 % 10)) = n / 10 % 10 :=
    digitVal_digitChar _ (by omega)
  have v1 : digitVal (Nat.digitChar (n % 10)) = n % 10 :=
    digitVal_digitChar _ (by omega)
  simp only [pad2, List.cons_append, List.nil_append, readExactDigits,
    e0, e1, if_true]
  rw [v0, v1]
  simp only [Option.some.injEq, Prod.mk.injEq, List.append_eq, List.nil_append,
    pow_zero, pow_one, mul_one, add_zero]
  exact ⟨by omega, trivial⟩

/-- The greedy one-or-two-digit reader consumes both rendered digits. -/
lemma readDigitsUpTo2_pad2 (n : Nat) (hn : n < 100) (rest : List Char) :
    readDigitsUpTo2 (pad2 n ++ rest) = some (n, rest) := by
  have e0 : (Nat.digitChar (n / 10 % 10)).isDigit = true :=
    digitChar_isDigit _ (by omega)
  have e1 : (Nat.digitChar (n % 10)).isDigit = true :=
    digitChar_isDigit _ (by omega)
  have v0 : digitVal (Nat.digitChar (n / 10 % 10)) = n / 10 % 10 :=
    digitVal_digitChar _ (by omega)
  have v1 : digitVal (Nat.digitChar (n % 10)) = n % 10 :=
    digitVal_digitChar _ (by omega)
  simp only [pad2, List.cons_append, List.nil_append, readDigitsUpTo2,
    e0, e1, if_true]
  rw [v0, v1]
  simp only [Option.some.injEq, Prod.mk.injEq, List.append_eq, List.nil_append]
  exact ⟨by omega, trivial⟩

/-- Consuming the expected literal character. -/
lemma expectChar_cons (c : Char) (rest : List Char) :
    expectChar c (c :: rest) = some rest := by
  simp [expectChar]

/-- The greedy digit-run reader consumes a whole rendered digit run that
fits in its budget and leaves nothing. -/
lemma takeDigits_map (ds : List Nat) (hds : ∀ x ∈ ds, x < 10) :
    ∀ n, ds.length ≤ n → takeDigits n (ds.map Nat.digitChar) = (ds, []) := by
  induction ds with
  | nil => intro n _; cases n <;> simp [takeDigits]
  | cons d ds ih =>
    intro n hlen
    cases n with
    | zero => simp at hlen
    | succ n =>
      have hd : d < 10 := hds d (by simp)
      have hrec := ih (fun x hx => hds x (by simp [hx])) n (by simpa using hlen)
      simp [takeDigits, digitChar_isDigit _ hd, digitVal_digitChar _ hd, hrec]

/-- Reading back a rendered digit run gives the run. -/
lemma map_digitVal_map_digitChar (ds : List Nat) (hds : ∀ x ∈ ds, x < 10) :
    (ds.map Nat.digitChar).map digitVal = ds := by
  induction ds with
  | nil => rfl
  | cons d ds ih =>
    have hd : d < 10 := hds d (by simp)
    simp [digitVal_digitChar _ hd, ih (fun x hx => hds x (by simp [hx]))]

/-- Accumulator bound for the digit-list value fold. -/
lemma foldl_digits_lt (ds : List Nat) (hds : ∀ x ∈ ds, x < 10) :
    ∀ a, ds.foldl (fun a d => a * 10 + d) a < (a + 1) * 10 ^ ds.length := by
  induction ds with
  | nil => intro a; simpa using Nat.lt_succ_self a
  | cons d ds ih =>
    intro a
    have hd : d < 10 := hds d (by simp)
    have h1 := ih (fun x hx => hds x (by simp [hx])) (a * 10 + d)
    have h2 : (a * 10 + d + 1) * 10 ^ ds.length ≤ (a + 1) * 10 ^ (d :: ds).length := by
      simp only [List.length_cons, pow_succ]
      calc (a * 10 + d + 1) * 10 ^ ds.length
          ≤ ((a + 1) * 10) * 10 ^ ds.length := by
            apply Nat.mul_le_mul_right
            omega
        _ = (a + 1) * (10 ^ ds.length * 10) := by ring
    calc (d :: ds).foldl (fun a d => a * 10 + d) a
        = ds.foldl (fun a d => a * 10 + d) (a * 10 + d) := rfl
      _ < (a * 10 + d + 1) * 10 ^ ds.length := h1
      _ ≤ (a + 1) * 10 ^ (d :: ds).length := h2

/-- The value of a digit run is below the power of ten of its length. -/
lemma digitsVal_lt (ds : List Nat) (hds : ∀ x ∈ ds, x < 10) :
    digitsVal ds < 10 ^ ds.length := by
  have h := foldl_digits_lt ds hds 0
  simpa [digitsVal] using h

/-- A microsecond value computed from at most six digits fits the datetime
constructor's bound. -/
lemma us_le_bound (ds : List Nat) (hds : ∀ x ∈ ds, x < 10)
    (hlen : ds.length ≤ 6) :
    digitsVal ds * 10 ^ (6 - ds.length) ≤ 999999 := by
  have h1 : digitsVal ds < 10 ^ ds.length := digitsVal_lt ds hds
  have h2 : digitsVal ds * 10 ^ (6 - ds.length) <
      10 ^ ds.length * 10 ^ (6 - ds.length) := by
    apply Nat.mul_lt_mul_of_lt_of_le h1 (le_refl _)
    exact Nat.pos_pow_of_pos _ (by omega)
  rw [← pow_add] at h2
  have h3 : ds.length + (6 - ds.length) = 6 := by omega
  rw [h3] at h2
  omega

/-- span splits a list at the first character failing the predicate. -/
lemma span_append_cons (p : Char → Bool) (l : List Char) (c : Char)
    (r : List Char) (hl : ∀ x ∈ l, p x = true) (hc : p c = false) :
    (l ++ c :: r).span p = (l, c :: r) := by
  rw [List.span_eq_take_drop]
  induction l with
  | nil => simp [List.takeWhile_cons, List.dropWhile_cons, hc]
  | cons a l ih =>
    have ha : p a = true := hl a (by simp)
    have hrest := ih (fun x hx => hl x (by simp [hx]))
    simp only [List.cons_append, List.takeWhile_cons, List.dropWhile_cons, ha,
      if_true, Prod.mk.injEq] at hrest ⊢
    exact ⟨by rw [hrest.1], hrest.2⟩

/-- Replacing Z distributes over append. -/
lemma replaceZall_append (l r : List Char) :
    replaceZall (l ++ r) = replaceZall l ++ replaceZall r := by
  simp [replaceZall, List.flatMap_append]

/-- Replacing Z in a Z-free list changes nothing. -/
lemma replaceZall_noZ (l : List Char) (hl : ∀ c ∈ l, (c == 'Z') = false) :
    replaceZall l = l := by
  induction l with
  | nil => rfl
  | cons c l ih =>
    have hc := hl c (by simp)
    have ih' := ih fun x hx => hl x (by simp [hx])
    unfold replaceZall at ih' ⊢
    rw [List.flatMap_cons, hc]
    simp only [Bool.false_eq_true, if_false, List.singleton_append]
    rw [ih']

/-- A list of digit characters has no occurrence of a non-digit. -/
lemma count_eq_zero_of_isDigit (l : List Char)
    (hl : ∀ c ∈ l, c.isDigit = true) (c0 : Char) (hc0 : c0.isDigit = false) :
    l.count c0 = 0 := by
  rw [List.count_eq_zero]
  intro hmem
  rw [hl c0 hmem] at hc0
  cases hc0

/-- A non-digit character distinct from the punctuation of the rendering is
not a member of the body. -/
lemma isoBody_mem_class (y mo d h mi s : Nat) (frac : Option (List Nat))
    (hfrac : ∀ ds, frac = some ds → ∀ x ∈ ds, x < 10) :
    ∀ c ∈ isoBody y mo d h mi s frac,
      c.isDigit = true ∨ c = '-' ∨ c = 'T' ∨ c = ':' ∨ c = '.' := by
  intro c hc
  simp only [isoBody, List.mem_append, List.mem_cons] at hc
  rcases hc with hx | hx | hx | hx | hx | hx | hx | hx | hx | hx | hx | hx
  · exact Or.inl (pad4_isDigit y c hx)
  · exact Or.inr (Or.inl hx)
  · exact Or.inl (pad2_isDigit mo c hx)
  · exact Or.inr (Or.inl hx)
  · exact Or.inl (pad2_isDigit d c hx)
  · exact Or.inr (Or.inr (Or.inl hx))
  · exact Or.inl (pad2_isDigit h c hx)
  · exact Or.inr (Or.inr (Or.inr (Or.inl hx)))
  · exact Or.inl (pad2_isDigit mi c hx)
  · exact Or.inr (Or.inr (Or.inr (Or.inl hx)))
  · exact Or.inl (pad2_isDigit s c hx)
  · cases hf : frac with
    | none => rw [hf] at hx; simp [fracChars] at hx
    | some ds =>
      rw [hf] at hx
      simp only [fracChars, List.mem_cons] at hx
      rcases hx with h3 | h3
      · exact Or.inr (Or.inr (Or.inr (Or.inr h3)))
      · exact Or.inl (mapDigitChar_isDigit ds (hfrac ds hf) c h3)

/-- The fractional strptime format parses the rendered body with a
fraction. -/
lemma pyStrptimeFrac_isoBody_some (y mo d h mi s : Nat) (ds : List Nat)
    (hy : y < 10000) (hmo : mo < 100) (hd : d < 100) (hh : h < 100)
    (hmi : mi < 100) (hs : s < 100)
    (hds : ∀ x ∈ ds, x < 10) (hlen1 : 1 ≤ ds.length) (hlen6 : ds.length ≤ 6)
    (hvalid : validPy y mo d h mi s (digitsVal ds * 10 ^ (6 - ds.length)) = true) :
    pyStrptimeFrac (isoBody y mo d h mi s (some ds)) =
      some ⟨y, mo, d, h, mi, s, digitsVal ds * 10 ^ (6 - ds.length)⟩ := by
  have r0 := readExactDigits_pad4 y hy
  have r1 := readDigitsUpTo2_pad2 mo hmo
  have r2 := readDigitsUpTo2_pad2 d hd
  have r3 := readDigitsUpTo2_pad2 h hh
  have r4 := readDigitsUpTo2_pad2 mi hmi
  have r5 := readDigitsUpTo2_pad2 s hs
  have r6 := takeDigits_map ds hds 6 hlen6
  have hne0 : (ds.length == 0) = false := by
    simp only [beq_eq_false_iff_ne, ne_eq]
    omega
  have hvmap := map_digitVal_map_digitChar ds hds
  simp only [pyStrptimeFrac, isoBody, fracChars, r0, r1, r2, r3, r4, r5,
    expectChar_cons, r6, hne0, List.isEmpty_nil, Bool.not_true,
    Bool.false_eq_true, if_false, Bool.or_self, hvalid, if_true]

/-- The fractional strptime format rejects the fraction-free rendered body
(the literal dot is missing). -/
lemma pyStrptimeFrac_isoBody_none (y mo d h mi s : Nat)
    (hy : y < 10000) (hmo : mo < 100) (hd : d < 100) (hh : h < 100)
    (hmi : mi < 100) (hs : s < 100) :
    pyStrptimeFrac (isoBody y mo d h mi s none) = none := by
  have r0 := readExactDigits_pad4 y hy
  have r1 := readDigitsUpTo2_pad2 mo hmo
  have r2 := readDigitsUpTo2_pad2 d hd
  have r3 := readDigitsUpTo2_pad2 h hh
  have r4 := readDigitsUpTo2_pad2 mi hmi
  have r5 := readDigitsUpTo2_pad2 s hs
  have r5' : readDigitsUpTo2 (pad2 s) = some (s, []) := by
    simpa using r5 []
  simp only [pyStrptimeFrac, isoBody, fracChars, List.append_nil, r0, r1, r2,
    r3, r4, r5', expectChar_cons]
  rfl

/-- The fraction-free strptime format parses the fraction-free rendered
body. -/
lemma pyStrptimeNoFrac_isoBody (y mo d h mi s : Nat)
    (hy : y < 10000) (hmo : mo < 100) (hd : d < 100) (hh : h < 100)
    (hmi : mi < 100) (hs : s < 100)
    (hvalid : validPy y mo d h mi s 0 = true) :
    pyStrptimeNoFrac (isoBody y mo d h mi s none) =
      some ⟨y, mo, d, h, mi, s, 0⟩ := by
  have r0 := readExactDigits_pad4 y hy
  have r1 := readDigitsUpTo2_pad2 mo hmo
  have r2 := readDigitsUpTo2_pad2 d hd
  have r3 := readDigitsUpTo2_pad2 h hh
  have r4 := readDigitsUpTo2_pad2 mi hmi
  have r5 := readDigitsUpTo2_pad2 s hs
  have r5' : readDigitsUpTo2 (pad2 s) = some (s, []) := by
    simpa using r5 []
  simp only [pyStrptimeNoFrac, isoBody, fracChars, List.append_nil, r0, r1,
    r2, r3, r4, r5', expectChar_cons, List.isEmpty_nil, Bool.not_true,
    Bool.false_eq_true, if_false, hvalid, if_true]

/-- All digit characters of a rendered digit run pass the all-digit check. -/
lemma all_isDigit_map (ds : List Nat) (hds : ∀ x ∈ ds, x < 10) :
    (ds.map Nat.digitChar).all Char.isDigit = true := by
  rw [List.all_eq_true]
  exact mapDigitChar_isDigit ds hds

/-- parse_hh_mm_ss_ff inverts the rendered time with optional fraction. -/
lemma parseHMSF_time (h mi s : Nat) (frac : Option (List Nat))
    (hh : h ≤ 23) (hmi : mi ≤ 59) (hs : s ≤ 59)
    (hfrac : match frac with
             | none => True
             | some ds => (∀ x ∈ ds, x < 10) ∧ (ds.length = 3 ∨ ds.length = 6)) :
    parseHMSF (pad2 h ++ ':' :: (pad2 mi ++ ':' :: (pad2 s ++ fracChars frac))) =
      some (h, mi, s, fracUs frac) := by
  have rh := readExactDigits_pad2 h (by omega)
  have rmi := readExactDigits_pad2 mi (by omega)
  have rs := readExactDigits_pad2 s (by omega)
  have hh' : ¬ h > 23 := by omega
  have hmi' : ¬ mi > 59 := by omega
  have hs' : ¬ s > 59 := by omega
  cases frac with
  | none =>
    have rs' : readExactDigits 2 (pad2 s) = some (s, []) := by
      simpa using rs []
    simp only [parseHMSF, fracChars, List.append_nil, rh, rmi, rs',
      hh', hmi', hs', if_false, fracUs]
  | some ds =>
    obtain ⟨hds, hlen⟩ := hfrac
    have hlenok : ((ds.map Nat.digitChar).length == 3 ||
        (ds.map Nat.digitChar).length == 6) = true := by
      rw [List.length_map]
      rcases hlen with hl | hl <;> simp [hl]
    have halldig := all_isDigit_map ds hds
    have hvmap := map_digitVal_map_digitChar ds hds
    simp only [parseHMSF, fracChars, rh, rmi, rs, hh', hmi', hs', if_false,
      hlenok, halldig, Bool.and_self, if_true, fracUs, hvmap,
      List.length_map]
    rcases hlen with hl | hl <;> simp [hl]

/-- A digit or time-punctuation character is not an offset sign. -/
lemma char_not_sign (x : Char)
    (hx : x.isDigit = true ∨ x = ':' ∨ x = '.') :
    (!(x == '+' || x == '-')) = true := by
  by_cases h1 : x = '+'
  · subst h1
    rcases hx with hx | hx | hx
    · exact absurd hx (by decide)
    · cases hx
    · cases hx
  · by_cases h2 : x = '-'
    · subst h2
      rcases hx with hx | hx | hx
      · exact absurd hx (by decide)
      · cases hx
      · cases hx
    · simp [h1, h2]

/-- Every character of the rendered time-with-fraction part is a digit or
time punctuation. -/
lemma timePart_mem (h mi s : Nat) (frac : Option (List Nat))
    (hfrac : ∀ ds, frac = some ds → ∀ x ∈ ds, x < 10) :
    ∀ x ∈ pad2 h ++ ':' :: (pad2 mi ++ ':' :: (pad2 s ++ fracChars frac)),
      (!(x == '+' || x == '-')) = true := by
  intro x hx
  apply char_not_sign
  simp only [List.mem_append, List.mem_cons] at hx
  rcases hx with hm | hm | hm | hm | hm | hm
  · exact Or.inl (pad2_isDigit h x hm)
  · exact Or.inr (Or.inl hm)
  · exact Or.inl (pad2_isDigit mi x hm)
  · exact Or.inr (Or.inl hm)
  · exact Or.inl (pad2_isDigit s x hm)
  · cases hf : frac with
    | none => rw [hf] at hm; simp [fracChars] at hm
    | some ds =>
      rw [hf] at hm
      simp only [fracChars, List.mem_cons] at hm
      rcases hm with hm | hm
      · exact Or.inr (Or.inr hm)
      · exact Or.inl (mapDigitChar_isDigit ds (hfrac ds hf) x hm)

/-- The Python 3.10 fromisoformat model inverts the rendered body followed
by the +00:00 offset that Z-replacement produces. -/
lemma pyFromIsoformat_isoBody_tz (y mo d h mi s : Nat)
    (frac : Option (List Nat))
    (hy : y < 10000) (hmo : mo < 100) (hd : d < 100)
    (hh : h ≤ 23) (hmi : mi ≤ 59) (hs : s ≤ 59)
    (hfrac : match frac with
             | none => True
             | some ds => (∀ x ∈ ds, x < 10) ∧ (ds.length = 3 ∨ ds.length = 6))
    (hvalid : validPy y mo d h mi s (fracUs frac) = true) :
    pyFromIsoformat (isoBody y mo d h mi s frac ++
        ['+', '0', '0', ':', '0', '0']) =
      some ⟨y, mo, d, h, mi, s, fracUs frac⟩ := by
  have r0 := readExactDigits_pad4 y hy
  have rm := readExactDigits_pad2 mo hmo
  have rd := readExactDigits_pad2 d hd
  have hshape : pad2 h ++ (':' :: (pad2 mi ++ (':' :: (pad2 s ++
      (fracChars frac ++ ('+' :: ['0', '0', ':', '0', '0'])))))) =
      (pad2 h ++ ':' :: (pad2 mi ++ ':' :: (pad2 s ++ fracChars frac))) ++
        '+' :: ['0', '0', ':', '0', '0'] := by
    simp [List.append_assoc]
  have hspanl : ∀ x ∈ pad2 h ++ ':' :: (pad2 mi ++ ':' ::
      (pad2 s ++ fracChars frac)),
      (!(x == '+' || x == '-')) = true := by
    apply timePart_mem
    intro ds hds
    cases frac with
    | none => cases hds
    | some ds2 =>
      obtain ⟨h1, -⟩ := hfrac
      cases hds
      exact h1
  have hsp := span_append_cons (fun c => !(c == '+' || c == '-'))
      (pad2 h ++ ':' :: (pad2 mi ++ ':' :: (pad2 s ++ fracChars frac)))
      '+' ['0', '0', ':', '0', '0'] hspanl (by decide)
  have hpt := parseHMSF_time h mi s frac hh hmi hs hfrac
  simp only [pyFromIsoformat, isoBody, List.append_assoc, List.cons_append,
    r0, rm, rd, expectChar_cons]
  rw [hshape, hsp]
  simp only [hpt, hvalid, if_true]
  rfl

/-- No character of the rendered body is Z. -/
lemma isoBody_noZ (y mo d h mi s : Nat) (frac : Option (List Nat))
    (hfrac : ∀ ds, frac = some ds → ∀ x ∈ ds, x < 10) :
    ∀ c ∈ isoBody y mo d h mi s frac, (c == 'Z') = false := by
  intro c hc
  rcases isoBody_mem_class y mo d h mi s frac hfrac c hc with hd | hm | hm | hm | hm
  · rw [beq_eq_false_iff_ne]
    intro he
    subst he
    exact absurd hd (by decide)
  · subst hm; decide
  · subst hm; decide
  · subst hm; decide
  · subst hm; decide

/-- The plus sign does not occur in the rendered body. -/
lemma isoBody_not_mem_plus (y mo d h mi s : Nat) (frac : Option (List Nat))
    (hfrac : ∀ ds, frac = some ds → ∀ x ∈ ds, x < 10) :
    ¬ ('+' ∈ isoBody y mo d h mi s frac) := by
  intro hmem
  rcases isoBody_mem_class y mo d h mi s frac hfrac '+' hmem with
    hd | hm | hm | hm | hm
  · exact absurd hd (by decide)
  · cases hm
  · cases hm
  · cases hm
  · cases hm

/-- A Z-free list does not end in Z. -/
lemma endsZ_false (l : List Char) (hl : ∀ c ∈ l, (c == 'Z') = false) :
    (l.getLast? == some 'Z') = false := by
  cases hlast : l.getLast? with
  | none => rfl
  | some c =>
    have hmem : c ∈ l := List.mem_of_mem_getLast? (by rw [hlast]; rfl)
    simpa using hl c hmem

/-- The rendered body holds exactly the two date dashes. -/
lemma count_dash_isoBody (y mo d h mi s : Nat) (frac : Option (List Nat))
    (hfrac : ∀ ds, frac = some ds → ∀ x ∈ ds, x < 10) :
    (isoBody y mo d h mi s frac).count '-' = 2 := by
  have c4 := count_eq_zero_of_isDigit (pad4 y) (pad4_isDigit y) '-' (by decide)
  have cmo := count_eq_zero_of_isDigit (pad2 mo) (pad2_isDigit mo) '-' (by decide)
  have cd := count_eq_zero_of_isDigit (pad2 d) (pad2_isDigit d) '-' (by decide)
  have chh := count_eq_zero_of_isDigit (pad2 h) (pad2_isDigit h) '-' (by decide)
  have cmi := count_eq_zero_of_isDigit (pad2 mi) (pad2_isDigit mi) '-' (by decide)
  have cs2 := count_eq_zero_of_isDigit (pad2 s) (pad2_isDigit s) '-' (by decide)
  have cf : (fracChars frac).count '-' = 0 := by
    cases hf : frac with
    | none => rfl
    | some ds =>
      have cm := count_eq_zero_of_isDigit (ds.map Nat.digitChar)
        (mapDigitChar_isDigit ds (hfrac ds hf)) '-' (by decide)
      simp [fracChars, List.count_cons, cm]
  simp [isoBody, List.count_append, List.count_cons, c4, cmo, cd, chh,
    cmi, cs2, cf]

/-- convert_to_mysql_datetime on the Z-suffixed canonical rendering:
Z-replacement routes it to fromisoformat and the stored components come
straight back out. -/
lemma convert_isoRender_z (y mo d h mi s : Nat) (frac : Option (List Nat))
    (hy : y < 10000) (hmo : mo < 100) (hd : d < 100)
    (hh : h ≤ 23) (hmi : mi ≤ 59) (hs : s ≤ 59)
    (hfrac : match frac with
             | none => True
             | some ds => (∀ x ∈ ds, x < 10) ∧ (ds.length = 3 ∨ ds.length = 6))
    (hvalid : validPy y mo d h mi s (fracUs frac) = true) :
    convert_to_mysql_datetime (isoRender y mo d h mi s frac true) =
      .ok (pyStrftimeMysql ⟨y, mo, d, h, mi, s, fracUs frac⟩) := by
  have hfrac' : ∀ ds, frac = some ds → ∀ x ∈ ds, x < 10 := by
    intro ds hds
    cases frac with
    | none => cases hds
    | some ds2 => cases hds; exact hfrac.1
  have hnoZ := isoBody_noZ y mo d h mi s frac hfrac'
  have hlast : ((isoBody y mo d h mi s frac ++ ['Z']).getLast? ==
      some 'Z') = true := by
    rw [List.getLast?_concat]
    decide
  have hrepl : replaceZall (isoBody y mo d h mi s frac ++ ['Z']) =
      isoBody y mo d h mi s frac ++ ['+', '0', '0', ':', '0', '0'] := by
    rw [replaceZall_append, replaceZall_noZ _ hnoZ]
    rfl
  have hplus : ((isoBody y mo d h mi s frac ++
      ['+', '0', '0', ':', '0', '0']).contains '+') = true := by
    simp
  have hiso := pyFromIsoformat_isoBody_tz y mo d h mi s frac hy hmo hd
    hh hmi hs hfrac hvalid
  simp only [convert_to_mysql_datetime, isoRender, if_true, hlast, hrepl,
    hplus, Bool.true_or, hiso]

/-- convert_to_mysql_datetime on the canonical rendering without Z: it
routes to strptime (fractional first, then plain) and the stored
components come straight back out. -/
lemma convert_isoRender_noz (y mo d h mi s : Nat) (frac : Option (List Nat))
    (hy : y < 10000) (hmo : mo < 100) (hd : d < 100)
    (hh : h < 100) (hmi : mi < 100) (hs : s < 100)
    (hfrac : match frac with
             | none => True
             | some ds => (∀ x ∈ ds, x < 10) ∧
                 (1 ≤ ds.length ∧ ds.length ≤ 6))
    (hvalid : validPy y mo d h mi s (fracUs frac) = true) :
    convert_to_mysql_datetime (isoRender y mo d h mi s frac false) =
      .ok (pyStrftimeMysql ⟨y, mo, d, h, mi, s, fracUs frac⟩) := by
  have hfrac' : ∀ ds, frac = some ds → ∀ x ∈ ds, x < 10 := by
    intro ds hds
    cases frac with
    | none => cases hds
    | some ds2 => cases hds; exact hfrac.1
  have hnoZ := isoBody_noZ y mo d h mi s frac hfrac'
  have hlast := endsZ_false _ hnoZ
  have hplus : ((isoBody y mo d h mi s frac).contains '+') = false := by
    simpa using isoBody_not_mem_plus y mo d h mi s frac hfrac'
  have hcount := count_dash_isoBody y mo d h mi s frac hfrac'
  have hcond : (((isoBody y mo d h mi s frac).contains '+') ||
      decide ((isoBody y mo d h mi s frac).count '-' > 2)) = false := by
    rw [hplus, hcount]
    decide
  cases hf : frac with
  | none =>
    have hp1 := pyStrptimeFrac_isoBody_none y mo d h mi s hy hmo hd hh hmi hs
    have hp2 := pyStrptimeNoFrac_isoBody y mo d h mi s hy hmo hd hh hmi hs
      (by rw [hf] at hvalid; simpa [fracUs] using hvalid)
    subst hf
    simp only [convert_to_mysql_datetime, isoRender, if_false,
      Bool.false_eq_true, List.append_nil, hlast, hcond, hp1, hp2, fracUs]
  | some ds =>
    rw [hf] at hfrac hvalid
    have hp1 := pyStrptimeFrac_isoBody_some y mo d h mi s ds hy hmo hd hh hmi
      hs hfrac.1 hfrac.2.1 hfrac.2.2 (by simpa [fracUs] using hvalid)
    subst hf
    simp only [convert_to_mysql_datetime, isoRender, if_false,
      Bool.false_eq_true, List.append_nil, hlast, hcond, hp1, fracUs]

/-- Every month length is at most 31. -/
lemma daysInMonth_le (y m : Nat) : daysInMonth y m ≤ 31 := by
  unfold daysInMonth
  split
  · split <;> omega
  · split <;> omega

/-- C9: schedule creation's datetime helper converts every canonical
ISO-8601 timestamp — optionally Z-suffixed, optionally with fractional
seconds (one to six digits plain, three or six with an offset, as CPython
accepts) — to the YYYY-MM-DD HH:MM:SS store representation; its only
failure mode is a 400 BadRequest; and in particular
2025-11-23T23:33:00.000Z converts to 2025-11-23 23:33:00 while a
non-datetime string fails with 400. -/
theorem c9_datetime_conversion :
    (∀ y mo d h mi s (frac : Option (List Nat)) (z : Bool),
       1000 ≤ y → y ≤ 9999 → 1 ≤ mo → mo ≤ 12 → 1 ≤ d → d ≤ daysInMonth y mo →
       h ≤ 23 → mi ≤ 59 → s ≤ 59 →
       (match frac with
        | none => True
        | some ds => (∀ x ∈ ds, x < 10) ∧
            (if z then ds.length = 3 ∨ ds.length = 6
             else 1 ≤ ds.length ∧ ds.length ≤ 6)) →
       convert_to_mysql_datetime (isoRender y mo d h mi s frac z) =
         .ok (pyStrftimeMysql ⟨y, mo, d, h, mi, s, fracUs frac⟩)) ∧
    (∀ str e, convert_to_mysql_datetime str = .error e → e.code = 400) ∧
    convert_to_mysql_datetime "2025-11-23T23:33:00.000Z" =
      .ok "2025-11-23 23:33:00" ∧
    convert_to_mysql_datetime "not-a-date" =
      .error ⟨400, "Invalid datetime format: not-a-date"⟩ := by
  refine ⟨?_, ?_, ?_, ?_⟩
  · intro y mo d h mi s frac z hy1 hy2 hmo1 hmo2 hd1 hd2 hh hmi hs hfrac
    have hd31 : d ≤ 31 := le_trans hd2 (daysInMonth_le y mo)
    have hus : fracUs frac ≤ 999999 := by
      cases hf : frac with
      | none => simp [fracUs]
      | some ds =>
        rw [hf] at hfrac
        apply us_le_bound ds hfrac.1
        rcases hz : z with - | -
        · rw [hz] at hfrac
          simp only [if_false, Bool.false_eq_true] at hfrac
          omega
        · rw [hz] at hfrac
          simp only [if_true] at hfrac
          rcases hfrac.2 with hl | hl <;> omega
    have hvalid : validPy y mo d h mi s (fracUs frac) = true := by
      simp only [validPy, Bool.and_eq_true, decide_eq_true_eq]
      omega
    cases z with
    | true =>
      apply convert_isoRender_z y mo d h mi s frac (by omega) (by omega)
        (by omega) hh hmi hs ?_ hvalid
      cases hf : frac with
      | none => trivial
      | some ds =>
        rw [hf] at hfrac
        simp only [if_true] at hfrac
        exact hfrac
    | false =>
      apply convert_isoRender_noz y mo d h mi s frac (by omega) (by omega)
        (by omega) (by omega) (by omega) (by omega) ?_ hvalid
      cases hf : frac with
      | none => trivial
      | some ds =>
        rw [hf] at hfrac
        simp only [if_false, Bool.false_eq_true] at hfrac
        exact hfrac
  · intro str e herr
    simp only [convert_to_mysql_datetime] at herr
    split at herr
    · exact absurd herr (by simp)
    · injection herr with h1
      rw [← h1]
  · rfl
  · rfl

/-- Witness for C9: the claim's concrete example instantiates the universal
part at 2025-11-23T23:33:00.000Z. -/
theorem c9_datetime_conversion_witness :
    convert_to_mysql_datetime (isoRender 2025 11 23 23 33 0 (some [0, 0, 0]) true) =
      .ok (pyStrftimeMysql ⟨2025, 11, 23, 23, 33, 0, fracUs (some [0, 0, 0])⟩) :=
  c9_datetime_conversion.1 2025 11 23 23 33 0 (some [0, 0, 0]) true
    (by omega) (by omega) (by omega) (by omega) (by omega) (by decide)
    (by omega) (by omega) (by omega) (by decide)

end UsersService
